import Mathlib

/-!
Verification development for the viessmann2mqtt Home Assistant discovery
pipeline.  TypeScript sources are embedded shallowly: JS objects become
association lists, JSON values an inductive type, and the stateful
component-record mutations explicit list rewriting.  JS numbers are
modelled as integers; no verified property computes with numeric values.
-/

set_option maxHeartbeats 1000000

namespace V2M

/-! ## JavaScript-style string primitives -/

/-- First index at which `sub` occurs in `l`, if any (used for regex
searches whose pattern is a literal). -/
def findSubIdx (sub : List Char) : List Char → Option Nat
  | [] => if sub.isPrefixOf ([] : List Char) then some 0 else none
  | c :: rest =>
    if sub.isPrefixOf (c :: rest) then some 0
    else (findSubIdx sub rest).map (· + 1)

/-- JS `String.prototype.includes`: `sub` occurs contiguously in `s`. -/
def strIncludes (s sub : String) : Bool :=
  (findSubIdx sub.toList s.toList).isSome

/-- JS `String.prototype.toLowerCase`.  Char-by-char ASCII lowering; every
string this development touches is lowered only on ASCII letters. -/
def jsToLower (s : String) : String := String.mk (s.toList.map Char.toLower)

/-- JS `String.prototype.endsWith`. -/
def strEndsWith (s suf : String) : Bool :=
  suf.toList.reverse.isPrefixOf s.toList.reverse

/-- JS `String.prototype.startsWith`. -/
def strStartsWith (s pre : String) : Bool := pre.toList.isPrefixOf s.toList

/-- Lexicographic comparison by code units, the default JS
`Array.prototype.sort` string comparator (`a ≤ b`). -/
def charListLe : List Char → List Char → Bool
  | [], _ => true
  | _ :: _, [] => false
  | a :: as, b :: bs =>
    if a.toNat < b.toNat then true
    else if b.toNat < a.toNat then false
    else charListLe as bs

def jsStrLe (a b : String) : Bool := charListLe a.toList b.toList

/-- Split on a single-character separator, JS `String.prototype.split`. -/
def splitOnChar (sep : Char) : List Char → List (List Char)
  | [] => [[]]
  | c :: rest =>
    let r := splitOnChar sep rest
    if c = sep then [] :: r
    else
      match r with
      | [] => [[c]]
      | h :: t => (c :: h) :: t

/-- JS `path.split(".")`. -/
def jsSplitDot (s : String) : List String :=
  (splitOnChar (Char.ofNat 46) s.toList).map String.mk

def digitsToNat (acc : Nat) : List Char → Nat
  | [] => acc
  | c :: rest => digitsToNat (acc * 10 + (c.toNat - 48)) rest

/-- Parse a nonempty all-digit string as a natural number. -/
def strToNat? (s : String) : Option Nat :=
  if s ≠ "" && s.toList.all Char.isDigit then some (digitsToNat 0 s.toList)
  else none

/-- Replace every non-overlapping occurrence of `pat` (nonempty) in the
list, scanning left to right — JS `String.prototype.replace` with a global
pattern of literal characters.  Fuel-structured so the kernel can reduce
it; `fuel = length` always suffices because a match consumes at least one
character, so the zero-fuel identity branch is unreachable. -/
def replaceSubGo (pat repl : List Char) : Nat → List Char → List Char
  | _, [] => []
  | 0, l => l
  | fuel + 1, c :: rest =>
    if pat ≠ [] && pat.isPrefixOf (c :: rest) then
      repl ++ replaceSubGo pat repl fuel ((c :: rest).drop pat.length)
    else c :: replaceSubGo pat repl fuel rest

def strReplace (s pat repl : String) : String :=
  String.mk (replaceSubGo pat.toList repl.toList s.toList.length s.toList)

/-! ## JSON-like property values -/

/-- JSON-like values as delivered by the Viessmann API inside
`Feature.properties`.  `jnull` is JS `null`. -/
inductive Jx where
  | jnull : Jx
  | jbool : Bool → Jx
  | jnum : Int → Jx
  | jstr : String → Jx
  | jarr : List Jx → Jx
  | jobj : List (String × Jx) → Jx
deriving Repr, Inhabited

/-- First binding of `key` in an object's field list. -/
def jxLookup (fields : List (String × Jx)) (key : String) : Option Jx :=
  match fields with
  | [] => none
  | (k, v) :: rest => if k = key then some v else jxLookup rest key

/-- Canonical array index strings, the keys under which JS exposes array
elements (`"0"`, `"1"`, …, no leading zeros). -/
def isCanonicalIndex (key : String) : Bool :=
  key ≠ "" && key.toList.all Char.isDigit && (key = "0" || !strStartsWith key "0")

/-- JS property read `j[key]`; `none` is `undefined`. -/
def Jx.get : Jx → String → Option Jx
  | .jobj fields, key => jxLookup fields key
  | .jarr xs, key =>
    if key = "length" then some (.jnum xs.length)
    else if isCanonicalIndex key then
      match strToNat? key with
      | some n => xs.get? n
      | none => none
    else none
  | _, _ => none

/-- JS truthiness on the value domain. -/
def Jx.truthy : Jx → Bool
  | .jnull => false
  | .jbool b => b
  | .jnum n => n ≠ 0
  | .jstr s => s ≠ ""
  | .jarr _ => true
  | .jobj _ => true

/-- `typeof v === "object"` for non-null values: arrays and plain objects.
(Call sites in the source always exclude `null` first, either by an explicit
check or by a truthiness guard.) -/
def Jx.isObjLike : Jx → Bool
  | .jarr _ => true
  | .jobj _ => true
  | _ => false

/-- JS `key in v`. -/
def Jx.hasKey (j : Jx) (key : String) : Bool := (j.get key).isSome

/-- JS strict equality with a string literal, `v === "s"`. -/
def jxIsStr (j? : Option Jx) (s : String) : Bool :=
  match j? with
  | some (.jstr t) => t = s
  | _ => false

def Jx.asStr : Jx → Option String
  | .jstr s => some s
  | _ => none

/-- Read `v[key]` where the source casts the result `as string`. -/
def Jx.getStr (j : Jx) (key : String) : Option String :=
  (j.get key).bind Jx.asStr

def Jx.isArr : Jx → Bool
  | .jarr _ => true
  | _ => false

/-! ## Data model (`src/models.ts`) -/

/-- `CommandParameter`: the `constraints` object is read only through its
`enum`, `min`, `max` and `stepping` members. -/
structure CommandParam where
  type : String
  constraintEnum : Option (List String) := none
  constraintMin : Option Int := none
  constraintMax : Option Int := none
  constraintStepping : Option Int := none
deriving Repr, DecidableEq

/-- `Command` (the `uri` member is never read by the discovery code). -/
structure Command where
  name : String
  isExecutable : Bool
  params : List (String × CommandParam) := []
deriving Repr, DecidableEq

/-- `Feature` restricted to the members the discovery code reads. -/
structure Feature where
  feature : String
  isEnabled : Bool
  properties : List (String × Jx) := []
  commands : List (String × Command) := []
deriving Repr

/-! ## Device factory (`src/devices/factory.ts`) — claim C3 -/

/-- The concrete `Device` subclass chosen by `DeviceFactory.createDevice`. -/
inductive DeviceKind where
  | fuelCell | gazBoiler | heatPump | hybrid | heating
deriving Repr, DecidableEq

/-- Case-insensitive regex test for an alternation of literal words,
`/w1|w2|…/i.test(modelId)`. -/
def testAnyWord (words : List String) (modelId : String) : Bool :=
  words.any (fun w => strIncludes (jsToLower modelId) (jsToLower w))

/-- One entry of the `deviceTypes` rule table.  `modelWords = none` encodes
the catch-all model pattern `/.*/i` of the hybrid entry, which matches every
string. -/
structure DeviceTypeRule where
  kind : DeviceKind
  modelWords : Option (List String)
  rolePatterns : List (List String)
deriving Repr, DecidableEq

def modelPatternTest (r : DeviceTypeRule) (modelId : String) : Bool :=
  match r.modelWords with
  | none => true
  | some ws => testAnyWord ws modelId

/-- The `deviceTypes` table of `DeviceFactory.createDevice`, in source
order. -/
def deviceTypes : List DeviceTypeRule :=
  [⟨.fuelCell, some ["Vitovalor", "Vitocharge", "Vitoblo"], []⟩,
   ⟨.gazBoiler,
    some ["Vitodens", "VScotH", "Vitocrossal", "VDensH", "Vitopend", "VPendH",
          "OT_Heating_System"],
    [["type:boiler"]]⟩,
   ⟨.heatPump, some ["Vitocal", "VBC70", "V200WO1A", "CU401B"],
    [["type:heatpump"]]⟩,
   ⟨.hybrid, none, []⟩]

/-- `DeviceFactory.createDevice` (the classification logic; constructor
side effects are irrelevant here). -/
def createDevice (roles : List String) (modelId : String) : DeviceKind :=
  let hasBoilerRole := roles.any (fun r => strIncludes r "type:boiler")
  let hasHeatPumpRole := roles.any (fun r => strIncludes r "type:heatpump")
  if hasBoilerRole && hasHeatPumpRole then .hybrid
  else
    match deviceTypes.find? (fun dt =>
        dt.rolePatterns.any (fun rp => rp.all (fun role => roles.contains role))
          || modelPatternTest dt modelId) with
    | some dt => dt.kind
    | none => .heating

/-- The classification procedure as the specification words it: the
role-based hybrid check first, then the four rules tried in the fixed order
fuel cell → gas boiler → heat pump → hybrid catch-all, each firing when its
model regex matches or one of its role-sets is contained in `roles`, and the
generic heating fallback when no rule matches. -/
def createDeviceSpecced (roles : List String) (modelId : String) : DeviceKind :=
  let boilerMarker := roles.any (fun r => strIncludes r "type:boiler")
  let heatPumpMarker := roles.any (fun r => strIncludes r "type:heatpump")
  if boilerMarker && heatPumpMarker then .hybrid
  else if testAnyWord ["Vitovalor", "Vitocharge", "Vitoblo"] modelId then .fuelCell
  else if testAnyWord ["Vitodens", "VScotH", "Vitocrossal", "VDensH", "Vitopend",
      "VPendH", "OT_Heating_System"] modelId
      || ["type:boiler"].all (fun role => roles.contains role) then .gazBoiler
  else if testAnyWord ["Vitocal", "VBC70", "V200WO1A", "CU401B"] modelId
      || ["type:heatpump"].all (fun role => roles.contains role) then .heatPump
  else if True then .hybrid
  else .heating

/-! ## Feature store accessors (`src/devices/base.ts`) — claim C4 -/

/-- The feature map built in the `Device` constructor: later entries for the
same path overwrite earlier ones. -/
def featureMapGet (features : List Feature) (path : String) : Option Feature :=
  features.foldl (fun acc f => if f.feature = path then some f else acc) none

/-- `Device.getProperty`: `null` when the path is unknown or the feature is
disabled. -/
def getProperty (features : List Feature) (propertyName : String) : Option Feature :=
  match featureMapGet features propertyName with
  | none => none
  | some f => if f.isEnabled then some f else none

/-- The `for (const part of parts)` loop of `Device.getPropertyValue`:
`none` models the early `return null`. -/
def walkParts : Jx → List String → Option Jx
  | current, [] => some current
  | current, part :: rest =>
    if current.isObjLike then
      match current.get part with
      | none => none
      | some nxt => walkParts nxt rest
    else none

/-- `Device.getPropertyValue`.  The JS function returns `T | null`; `null`
results (early exits and stored nulls alike) are the value `Jx.jnull`.
The final guard `current && typeof current === "object"` coincides with
`isObjLike` because arrays and objects are always truthy and `null` is not
object-like here. -/
def getPropertyValue (feature : Option Feature) (propertyPath : String) : Jx :=
  match feature with
  | none => .jnull
  | some f =>
    match walkParts (.jobj f.properties) (jsSplitDot propertyPath) with
    | none => .jnull
    | some current =>
      if current.isObjLike && current.hasKey "value" then
        match current.get "value" with
        | some v => v
        | none => .jnull
      else current

/-! ## Unit normalization (`src/devices/homeassistant-utils.ts`) — claim C6 -/

/-- The `UNIT_MAP` table, in source order. -/
def UNIT_MAP : List (String × String) :=
  [("kilowatthour", "kWh"), ("kilowatthour/year", "kWh"),
   ("cubicmeter", "m³"), ("m³", "m³"), ("liter", "L"),
   ("bar", "bar"),
   ("celsius", "°C"), ("fahrenheit", "°F"), ("kelvin", "K"),
   ("hour", "h"), ("minute", "min"), ("second", "s"),
   ("watt", "W"), ("kilowatt", "kW"), ("megawatt", "MW"),
   ("liter/hour", "L/h"),
   ("meter", "m"), ("degree", "°"), ("percent", "%"),
   ("kilowatthourpercubicmeter", "kWh/m³")]

def unitMapLookup (u : String) : Option String := UNIT_MAP.lookup u

/-- The energy acceptance test of `normalizeUnit`
(`normalized.endsWith("Wh") || normalized.endsWith("h")`). -/
def isEnergyWhitelisted (n : String) : Bool := strEndsWith n "Wh" || strEndsWith n "h"

/-- The pressure acceptance test of `normalizeUnit`. -/
def isPressureWhitelisted (n : String) : Bool :=
  n = "bar" || strEndsWith n "bar" || strEndsWith n "Pa" || strEndsWith n "Hg"
    || n = "psi"

/-- `normalizeUnit`.  The falsy check `!unit` also rejects the empty
string. -/
def normalizeUnit (unit : Option String) (deviceClass : Option String) :
    Option String :=
  match unit with
  | none => none
  | some u =>
    if u = "" then none
    else
      let unitLower := jsToLower u
      if deviceClass = some "energy" then
        match unitMapLookup unitLower with
        | some n => if isEnergyWhitelisted n then some n else none
        | none => none
      else if deviceClass = some "pressure" then
        match unitMapLookup unitLower with
        | some n => if isPressureWhitelisted n then some n else none
        | none => none
      else
        match unitMapLookup unitLower with
        | some n => some n
        | none => some u

/-! ## Climate mode mapping (`homeassistant-utils.ts`) — claim C10 -/

/-- `mapViessmannModeToHomeAssistant`. -/
def mapViessmannModeToHomeAssistant (mode : String) : String :=
  if mode = "Nothing" || strIncludes (jsToLower mode) "off" then "off"
  else if strIncludes mode "Weather" && !strIncludes mode "Room" then "auto"
  else "heat"

/-- JS `Set` insertion: keep the first occurrence. -/
def addUnique (acc : List String) (x : String) : List String :=
  if acc.contains x then acc else acc ++ [x]

/-- Insert into a sorted list, ahead of the first element not below `x`. -/
def insertSorted (x : String) : List String → List String
  | [] => [x]
  | y :: ys => if jsStrLe x y then x :: y :: ys else y :: insertSorted x ys

/-- Ascending sort by the default JS string comparator.  `Array.prototype.sort`
returns the sorted permutation of its input; on duplicate-free input (the
only shape reaching this call, coming from a `Set`) that permutation is
unique, so the choice of sorting algorithm is observationally irrelevant. -/
def sortStrings : List String → List String
  | [] => []
  | x :: xs => insertSorted x (sortStrings xs)

/-- `mapViessmannModesToHomeAssistant`: collect mapped modes into a set,
append `"off"` when nonempty and missing, and sort ascending. -/
def mapViessmannModesToHomeAssistant (modes : List String) : List String :=
  let validModes :=
    modes.foldl (fun acc m => addUnique acc (mapViessmannModeToHomeAssistant m)) []
  let withOff :=
    if validModes.length > 0 && !validModes.contains "off" then
      validModes ++ ["off"]
    else validModes
  sortStrings withOff

/-! ## MQTT discovery data model (`src/devices/homeassistant.ts`) -/

/-- The identifiers held by a `HomeAssistantDiscovery` instance. -/
structure Cfg where
  baseTopic : String
  installationId : Nat
  gatewayId : String
  deviceId : String
deriving Repr, DecidableEq

/-- The state topic of a feature:
`{base}/installations/{i}/gateways/{g}/devices/{d}/features/{path}`. -/
def featureTopic (cfg : Cfg) (featurePath : String) : String :=
  cfg.baseTopic ++ "/installations/" ++ Nat.repr cfg.installationId
    ++ "/gateways/" ++ cfg.gatewayId ++ "/devices/" ++ cfg.deviceId
    ++ "/features/" ++ featurePath

/-- The `unique_id` scheme `viessmann_{i}_{g}_{d}_{componentKey}`. -/
def uidOf (cfg : Cfg) (componentKey : String) : String :=
  "viessmann_" ++ Nat.repr cfg.installationId ++ "_" ++ cfg.gatewayId
    ++ "_" ++ cfg.deviceId ++ "_" ++ componentKey

/-- `HomeAssistantDiscovery.generateCommandTopic`. -/
def commandTopicOf (cfg : Cfg) (featurePath commandName : String) : String :=
  featureTopic cfg featurePath ++ "/commands/" ++ commandName ++ "/set"

/-- A Home Assistant discovery component.  TS builds these as open JS
objects; the fields below are exactly the ones the embedded code writes or
reads.  `min`/`max`/`mode` keep their JSON names as `minVal`/`maxVal`/
`boxMode` to avoid clashing with Lean builtins. -/
structure Component where
  platform : String
  unique_id : Option String := none
  name : Option String := none
  state_topic : Option String := none
  value_template : Option String := none
  device_class : Option String := none
  unit_of_measurement : Option String := none
  state_class : Option String := none
  entity_category : Option String := none
  ent_cat : Option String := none
  enabled_by_default : Option Bool := none
  en : Option Bool := none
  command_topic : Option String := none
  command_template : Option String := none
  payload_press : Option String := none
  payload_on : Option String := none
  payload_off : Option String := none
  options : Option (List String) := none
  minVal : Option Int := none
  maxVal : Option Int := none
  step : Option Int := none
  boxMode : Option String := none
  mode_command_topic : Option String := none
  mode_command_template : Option String := none
  temperature_command_topic : Option String := none
  temperature_command_template : Option String := none
  json_attributes_topic : Option String := none
  json_attributes_template : Option String := none
deriving Repr, DecidableEq

/-- A JS object used as a string-keyed component record, in insertion
order. -/
abbrev Components := List (String × Component)

/-- JS property assignment `m[k] = v`: replace in place or append. -/
def setC : Components → String → Component → Components
  | [], k, v => [(k, v)]
  | (k', v') :: rest, k, v =>
    if k' = k then (k', v) :: rest else (k', v') :: setC rest k v

/-- JS property read `m[k]`. -/
def getC : Components → String → Option Component
  | [], _ => none
  | (k', v') :: rest, k => if k' = k then some v' else getC rest k

/-- `Object.assign(m, additions)` with `additions` in entry order. -/
def setAll (m : Components) (l : List (String × Component)) : Components :=
  l.foldl (fun acc kv => setC acc kv.1 kv.2) m

/-! ## Jinja template builders (`homeassistant-utils.ts`).
Template text is claim-irrelevant but embedded faithfully; `lb`/`rb` are the
literal brace characters. -/

def lb : String := "\x7b"

def rb : String := "\x7d"

def tOpen (p : String) : String :=
  lb ++ "% if " ++ p ++ " is defined %" ++ rb

def tEnd : String := lb ++ "% endif %" ++ rb

def tVal (e : String) : String := lb ++ lb ++ " " ++ e ++ " " ++ rb ++ rb

/-- The ON/OFF conversion chain used for binary sensors. -/
def tBinChain (e : String) : String :=
  lb ++ "% if " ++ e ++ " == true %" ++ rb ++ "ON"
    ++ lb ++ "% elif " ++ e ++ " == false %" ++ rb ++ "OFF"
    ++ lb ++ "% elif " ++ e ++ "|lower == \"on\" %" ++ rb ++ "ON"
    ++ lb ++ "% elif " ++ e ++ "|lower == \"off\" %" ++ rb ++ "OFF"
    ++ lb ++ "% else %" ++ rb ++ tVal e ++ tEnd

/-- Parser for the literal regex `^(\w+)\.(\w+)\[(\d+)\]$`. -/
def parseArrayPath (p : String) : Option (String × String × String) :=
  let isW := fun (c : Char) => c.isAlphanum || c = '_'
  let cs := p.toList
  let seg1 := cs.takeWhile isW
  match cs.drop seg1.length with
  | '.' :: rest2 =>
    let seg2 := rest2.takeWhile isW
    match rest2.drop seg2.length with
    | '[' :: rest4 =>
      let digs := rest4.takeWhile Char.isDigit
      if seg1 ≠ [] && seg2 ≠ [] && digs ≠ [] && rest4.drop digs.length = [']'] then
        some (String.mk seg1, String.mk seg2, String.mk digs)
      else none
    | _ => none
  | _ => none

/-- The shared `value.value` fallback template of `safeValueTemplate`. -/
def defaultValueTemplate (isBinarySensor : Bool) : String :=
  tOpen "value_json" ++ tOpen "value_json.properties"
    ++ tOpen "value_json.properties.value"
    ++ tOpen "value_json.properties.value.value"
    ++ (if isBinarySensor then tBinChain "value_json.properties.value.value"
        else tVal "value_json.properties.value.value")
    ++ tEnd ++ tEnd ++ tEnd ++ tEnd

/-- `safeValueTemplate`. -/
def safeValueTemplate (propertyPath : String) (isBinarySensor : Bool) :
    String :=
  if propertyPath = "value.value" then defaultValueTemplate isBinarySensor
  else
    let arrayCase :=
      if strIncludes propertyPath "[" && strIncludes propertyPath "]" then
        match parseArrayPath propertyPath with
        | some (prop, subProp, index) =>
          let base := "value_json.properties." ++ prop
          let e := base ++ "." ++ subProp
          some (tOpen "value_json" ++ tOpen "value_json.properties"
            ++ tOpen base ++ tOpen e
            ++ lb ++ "% if " ++ e ++ " is iterable %" ++ rb
            ++ lb ++ "% if " ++ e ++ "|length > " ++ index ++ " %" ++ rb
            ++ tVal (e ++ "[" ++ index ++ "]")
            ++ tEnd ++ tEnd ++ tEnd ++ tEnd ++ tEnd ++ tEnd)
        | none => none
      else none
    match arrayCase with
    | some t => t
    | none =>
      match jsSplitDot propertyPath with
      | [prop, subProp] =>
        let e := "value_json.properties." ++ prop ++ "." ++ subProp
        tOpen "value_json" ++ tOpen "value_json.properties"
          ++ tOpen ("value_json.properties." ++ prop) ++ tOpen e
          ++ (if isBinarySensor then tBinChain e else tVal e)
          ++ tEnd ++ tEnd ++ tEnd ++ tEnd
      | _ => defaultValueTemplate isBinarySensor

/-- `percentageValueTemplate`. -/
def percentageValueTemplate (propertyPath : String) : String :=
  if propertyPath = "value.value" then
    tOpen "value_json" ++ tOpen "value_json.properties"
      ++ tOpen "value_json.properties.value"
      ++ tOpen "value_json.properties.value.value"
      ++ lb ++ "% set val = value_json.properties.value.value %" ++ rb
      ++ lb ++ "% if val > 0 and val <= 1 %" ++ rb
      ++ tVal "(val * 100) | round(1)"
      ++ lb ++ "% else %" ++ rb ++ tVal "val" ++ tEnd
      ++ tEnd ++ tEnd ++ tEnd ++ tEnd
  else safeValueTemplate propertyPath false

/-- `buildSingleParamCommandTemplate`. -/
def buildSingleParamCommandTemplate (paramName paramType : String) : String :=
  if paramType = "number" then
    lb ++ "\"" ++ paramName ++ "\": " ++ lb ++ lb ++ " value | float " ++ rb ++ rb ++ rb
  else
    lb ++ "\"" ++ paramName ++ "\": " ++ lb ++ lb ++ " value | tojson " ++ rb ++ rb ++ rb

/-- `buildModeCommandTemplate`. -/
def buildModeCommandTemplate (paramName : String)
    (allowedModes : Option (List String)) : String :=
  let hasStandby := (allowedModes.getD []).contains "standby"
  let hasHeating := (allowedModes.getD []).contains "heating"
  lb ++ "% set mode = value %" ++ rb
    ++ lb ++ "% if mode == \"off\" %" ++ rb
    ++ lb ++ "% set mode = \"" ++ (if hasStandby then "standby" else "off") ++ "\" %" ++ rb
    ++ lb ++ "% elif mode == \"heat\" %" ++ rb
    ++ lb ++ "% set mode = \"" ++ (if hasHeating then "heating" else "heat") ++ "\" %" ++ rb
    ++ lb ++ "% elif mode == \"auto\" %" ++ rb
    ++ lb ++ "% set mode = \"" ++ (if hasHeating then "heating" else "auto") ++ "\" %" ++ rb
    ++ lb ++ "% endif %" ++ rb
    ++ lb ++ "\"" ++ paramName ++ "\": \"" ++ lb ++ lb ++ " mode " ++ rb ++ rb ++ "\"" ++ rb

/-! ## Shared discovery helpers (`homeassistant.ts`) -/

/-- JS whitespace for `String.prototype.trim` (the characters occurring in
this code base). -/
def isJsSpace (c : Char) : Bool := c = ' ' || c = '\t' || c = '\n' || c = '\r'

def jsTrim (s : String) : String :=
  String.mk (((s.toList.dropWhile isJsSpace).reverse.dropWhile isJsSpace).reverse)

/-- `isCircuitContainerFeature`: matches `/^heating\.circuits\.\d+$/`. -/
def isCircuitContainerFeature (featurePath : String) : Bool :=
  strStartsWith featurePath "heating.circuits." &&
    (let rest := featurePath.toList.drop 17
     rest ≠ [] && rest.all Char.isDigit)

/-- `Device.isListFeature`: the six anchored literal patterns. -/
def isListFeature (featurePath : String) : Bool :=
  ["heating.burners", "heating.circuits", "heating.compressors",
   "device.serial.internalComponents", "fuelCell.errors.raw",
   "gateway.devices"].contains featurePath

/-- `extractFeaturePath`: first match of `/\/features\/(.+)$/`. -/
def extractFeaturePath (stateTopic : Option String) : Option String :=
  match stateTopic with
  | none => none
  | some topic =>
    if topic = "" then none
    else
      match findSubIdx "/features/".toList topic.toList with
      | none => none
      | some i =>
        let rest := topic.toList.drop (i + 10)
        if rest = [] then none else some (String.mk rest)

/-- `isServiceTechnicianFeature`. -/
def isServiceTechnicianFeature (featurePath : String) : Bool :=
  strIncludes featurePath ".configuration."
    || strIncludes featurePath ".screedDrying"
    || strIncludes featurePath ".hysteresis"
    || strIncludes featurePath ".minimumLimit"
    || strIncludes featurePath ".maximumLimit"
    || strIncludes featurePath ".defaultLimit"
    || strIncludes featurePath ".normalRange"

def countKeyNames : List String :=
  ["countOne", "countTwo", "countThree", "countFour", "countFive", "countSix",
   "countSeven"]

/-- `determineEntityCategory`.  The source never returns `"config"` from
this function; its `deviceClass` argument is unused. -/
def determineEntityCategory (featurePath platform : String)
    (_deviceClass : Option String) (properties : List (String × Jx)) :
    Option String :=
  if isServiceTechnicianFeature featurePath
      && (platform = "sensor" || platform = "binary_sensor") then
    some "diagnostic"
  else if strIncludes featurePath ".status" || strIncludes featurePath ".error"
      || strIncludes featurePath ".signal" || strIncludes featurePath ".rssi"
      || strIncludes featurePath "connection" || strIncludes featurePath "firmware"
      || strIncludes featurePath "software" || strIncludes featurePath "version" then
    some "diagnostic"
  else if (strIncludes featurePath "consumption"
        || strIncludes featurePath "production"
        || strIncludes featurePath "statistics")
      && (["week", "month", "year", "currentMonth", "currentYear", "lastMonth",
            "lastYear"].any (fun k => (jxLookup properties k).isSome)) then
    some "diagnostic"
  else if properties.any (fun kv => countKeyNames.contains kv.1) then
    some "diagnostic"
  else none

def serviceCommandNames : List String :=
  ["setAltitude", "reset", "setOrientation", "setNormalRange", "setHysteresis",
   "setHysteresisSwitchOnValue", "setHysteresisSwitchOffValue",
   "setMinimumLimit", "setMaximumLimit", "setDefaultLimit", "removeController",
   "removeZigbeeController"]

/-- `isServiceTechnicianCommand`. -/
def isServiceTechnicianCommand (commandName featurePath : String) : Bool :=
  if isServiceTechnicianFeature featurePath then true
  else if commandName = "reset" && strIncludes featurePath ".schedule" then false
  else serviceCommandNames.contains commandName

def commandPlatforms : List String :=
  ["number", "select", "switch", "button", "text", "climate"]

/-- `addServiceCommandProperties` as a pure record update. -/
def addServiceCommandProperties (component : Component) (isServiceCommand : Bool) :
    Component :=
  if isServiceCommand then
    let c := { component with enabled_by_default := some false, en := some false }
    if commandPlatforms.contains c.platform then
      { c with entity_category := some "config", ent_cat := some "config" }
    else c
  else component

/-- One-pass digit-run wrapper; the boolean records whether the previous
character was a digit.  `wrapDigitRuns` below is
`replace(/\d+/g, m => "_" + m + "_")`. -/
def wrapDigitsGo : Bool → List Char → List Char
  | inRun, [] => if inRun then ['_'] else []
  | inRun, c :: rest =>
    if c.isDigit then
      if inRun then c :: wrapDigitsGo true rest
      else '_' :: c :: wrapDigitsGo true rest
    else
      if inRun then '_' :: c :: wrapDigitsGo false rest
      else c :: wrapDigitsGo false rest

/-- Wrap every maximal digit run in underscores. -/
def wrapDigitRuns (l : List Char) : List Char := wrapDigitsGo false l

/-- One-pass underscore-run collapser; the boolean records whether the
previous character was an underscore.  `collapseUnderscores` below is
`replace(/__+/g, "_")`. -/
def collapseGo : Bool → List Char → List Char
  | _, [] => []
  | prevU, c :: rest =>
    if c = '_' then
      if prevU then collapseGo true rest else '_' :: collapseGo true rest
    else c :: collapseGo false rest

/-- Collapse every underscore run to a single underscore. -/
def collapseUnderscores (l : List Char) : List Char := collapseGo false l

/-- `generateComponentKey`. -/
def generateComponentKey (featurePath : String) : String :=
  let s1 :=
    if strStartsWith featurePath "heating." then featurePath.toList.drop 8
    else featurePath.toList
  let s2 := s1.map (fun c => if c = '.' then '_' else c)
  let s3 := collapseUnderscores (wrapDigitRuns s2)
  let s4 := if s3.head? = some '_' then s3.drop 1 else s3
  let s5 := if s4.getLast? = some '_' then s4.dropLast else s4
  String.mk s5

/-- The `DEVICE_CLASS_RULES` unit regexes, applied to lowercased units. -/
def gasEnergyUnitTest (unit : String) : Bool :=
  ["kilowatthour", "watthour", "megawatthour"].any (fun w => strIncludes unit w)

def energyUnitTest (unit : String) : Bool :=
  ["kilowatthour", "watthour", "megawatthour", "gigawatthour", "joule",
   "calorie", "btu"].any (fun w => strIncludes unit w)

def powerUnitTest (unit : String) : Bool :=
  (["kilowatt", "watt", "megawatt"].any (fun w => strIncludes unit w))
    && !strIncludes unit "hour"

structure DeviceClassResult where
  deviceClass : Option String
  removeDeviceClass : Bool
deriving Repr, DecidableEq

/-- `determineDeviceClass`: first matching rule of `DEVICE_CLASS_RULES`. -/
def determineDeviceClass (featurePath unit : String) : DeviceClassResult :=
  let unitLower := jsToLower unit
  let isGasConsumption :=
    strIncludes featurePath "gas" && strIncludes featurePath "consumption"
  if isGasConsumption && !gasEnergyUnitTest unitLower then ⟨none, true⟩
  else if isGasConsumption && gasEnergyUnitTest unitLower then ⟨some "energy", false⟩
  else if strIncludes featurePath "production" && strIncludes featurePath "power" then
    ⟨some "power", false⟩
  else if energyUnitTest unitLower then ⟨some "energy", false⟩
  else if powerUnitTest unitLower then ⟨some "power", false⟩
  else ⟨none, false⟩

/-- First rule of `PLATFORM_DETECTION_RULES`: boolean `active` property. -/
def platformRuleActive (properties : List (String × Jx)) : Bool :=
  match jxLookup properties "active" with
  | some a => a.isObjLike && jxIsStr (a.get "type") "boolean"
  | none => false

/-- Second rule of `PLATFORM_DETECTION_RULES`: the `status` property. -/
def platformRuleStatus (featurePath : String) (properties : List (String × Jx)) :
    Bool :=
  let hasValue := (jxLookup properties "value").isSome
  let isTempPressure :=
    strIncludes featurePath "temperature" || strIncludes featurePath "pressure"
  let isBinaryState := strIncludes featurePath "pump"
    || strIncludes featurePath "valve" || strIncludes featurePath "circulation"
  match jxLookup properties "status" with
  | none => false
  | some status =>
    if !(status.isObjLike && status.hasKey "type" && status.hasKey "value") then
      false
    else
      let isOnOffString :=
        match status.get "value" with
        | some (.jstr s) => jsToLower s = "on" || jsToLower s = "off"
        | _ => false
      let isStringType := jxIsStr (status.get "type") "string"
      jxIsStr (status.get "type") "boolean"
        || (isStringType && isOnOffString && !hasValue && !isTempPressure)
        || (isBinaryState && isStringType && isOnOffString)

/-- `determinePlatform`. -/
def determinePlatform (featurePath : String) (properties : List (String × Jx)) :
    String :=
  if platformRuleActive properties then "binary_sensor"
  else if platformRuleStatus featurePath properties then "binary_sensor"
  else "sensor"

structure BinaryPathResult where
  path : String
  deviceClass : Option String
deriving Repr, DecidableEq

/-- One entry of `BINARY_SENSOR_PATHS` applied to the feature. -/
def bsEntry (properties : List (String × Jx)) (prop : String)
    (deviceClass : Option String) (pathOk : Bool) : Option BinaryPathResult :=
  match jxLookup properties prop with
  | some p =>
    if p.isObjLike && p.hasKey "value" && pathOk then
      some ⟨prop ++ ".value", deviceClass⟩
    else none
  | none => none

/-- `findBinarySensorPropertyPath`. -/
def findBinarySensorPropertyPath (featurePath : String)
    (properties : List (String × Jx)) : Option BinaryPathResult :=
  (bsEntry properties "active" (some "heat") true).orElse fun _ =>
  (bsEntry properties "status" (some "running")
    (strIncludes featurePath "pump" || strIncludes featurePath "circulation")).orElse fun _ =>
  (bsEntry properties "status" (some "opening")
    (strIncludes featurePath "valve")).orElse fun _ =>
  bsEntry properties "status" none true

/-- `Object.values(properties).some(prop => …unit present…)` of
`findSensorPropertyPath`. -/
def hasUnitProperty (properties : List (String × Jx)) : Bool :=
  properties.any (fun kv => kv.2.isObjLike && (kv.2.get "unit").isSome)

def isArrValue (p : Jx) : Bool :=
  match p.get "value" with
  | some (.jarr _) => true
  | _ => false

/-- The skip rule for `status` on temperature/pressure features when a
structured `value` property exists. -/
def statusSkip (featurePath : String) (properties : List (String × Jx))
    (key : String) : Bool :=
  (strIncludes featurePath "temperature" || strIncludes featurePath "pressure")
    && key = "status"
    && (match jxLookup properties "value" with
        | some v => v.truthy && v.isObjLike && v.hasKey "value"
        | none => false)

/-- One priority-key step of `findSensorPropertyPath`. -/
def sensorKeyCandidate (featurePath : String) (properties : List (String × Jx))
    (hasUnit : Bool) (key : String) : Option String :=
  match jxLookup properties key with
  | none => none
  | some prop =>
    if !(prop.isObjLike && prop.hasKey "value") then none
    else if statusSkip featurePath properties key then none
    else if hasUnit && isArrValue prop then none
    else if (key = "day" || key = "week" || key = "month" || key = "year")
        && isArrValue prop then
      some (key ++ ".value[0]")
    else some (key ++ ".value")

/-- One fallback-loop step of `findSensorPropertyPath`. -/
def sensorFallbackCandidate (featurePath : String)
    (properties : List (String × Jx)) (hasUnit : Bool)
    (kv : String × Jx) : Option String :=
  if statusSkip featurePath properties kv.1 then none
  else if kv.2.isObjLike && kv.2.hasKey "value" then
    if hasUnit && isArrValue kv.2 then none
    else if isArrValue kv.2 then some (kv.1 ++ ".value[0]")
    else some (kv.1 ++ ".value")
  else none

/-- `findSensorPropertyPath`. -/
def findSensorPropertyPath (featurePath : String)
    (properties : List (String × Jx)) : String :=
  let hasUnit := hasUnitProperty properties
  let priority :=
    if strIncludes featurePath "temperature" || strIncludes featurePath "pressure" then
      ["value", "strength", "day", "week", "month", "year"]
    else if strIncludes featurePath "summary" then
      ["value", "currentDay", "strength", "day", "week", "month", "year", "status"]
    else ["value", "strength", "status", "day", "week", "month", "year"]
  let numericWithUnit : Option String :=
    if hasUnit then
      (properties.find? (fun kv =>
        kv.2.isObjLike && kv.2.hasKey "value" && (kv.2.get "unit").isSome
          && (jxIsStr (kv.2.get "type") "number"
              || (match kv.2.get "value" with
                  | some (.jnum _) => true
                  | _ => false)))).map (fun kv => kv.1 ++ ".value")
    else none
  match numericWithUnit with
  | some p => p
  | none =>
    match priority.findSome? (sensorKeyCandidate featurePath properties hasUnit) with
    | some p => p
    | none =>
      match properties.findSome?
          (sensorFallbackCandidate featurePath properties hasUnit) with
      | some p => p
      | none => "value.value"

/-- `getCircuitNameForFeature` (the `!circuitFeature.properties` guard can
never fire in the model, where `properties` is always a list). -/
def getCircuitNameForFeature (featurePath : String) (features : List Feature) :
    Option String :=
  if strStartsWith featurePath "heating.circuits." then
    let digs := (featurePath.toList.drop 17).takeWhile Char.isDigit
    if digs = [] then none
    else
      let circuitFeaturePath := "heating.circuits." ++ String.mk digs
      match features.find? (fun f => f.feature = circuitFeaturePath) with
      | none => none
      | some cf =>
        match jxLookup cf.properties "name" with
        | some np =>
          if np.isObjLike && np.hasKey "value" then
            match np.get "value" with
            | some (.jstr s) => if jsTrim s ≠ "" then some s else none
            | _ => none
          else none
        | none => none
  else none

/-- First binding of `key` in a command record. -/
def jxLookupCmd (cmds : List (String × Command)) (key : String) : Option Command :=
  match cmds with
  | [] => none
  | (k, v) :: rest => if k = key then some v else jxLookupCmd rest key

/-- `getExecutableCommands`. -/
def getExecutableCommands (f : Feature) : List (String × Command) :=
  f.commands.filter (fun kv => kv.2.isExecutable)

def spaceCaps (l : List Char) : List Char :=
  l.flatMap (fun c => if c.isUpper then [' ', c] else [c])

def upFirst : List Char → List Char
  | [] => []
  | c :: r => c.toUpper :: r

/-- `replace(/([A-Z])/g, " $1").replace(/^./, up).trim()`. -/
def labelize (s : String) : String :=
  jsTrim (String.mk (upFirst (spaceCaps s.toList)))

/-- `buildCommandComponentName`. -/
def buildCommandComponentName (featureName commandName : String)
    (paramName : Option String) : String :=
  match paramName with
  | some pn =>
    jsTrim (featureName ++ " " ++ labelize commandName ++ " " ++ labelize pn)
  | none => jsTrim (featureName ++ " " ++ labelize commandName)

/-- The `semanticMatches` table of `getCommandStateConfig`. -/
def semanticMatches (paramName : String) : List String :=
  if paramName = "targetTemperature" then ["temperature", "temp", "value"]
  else if paramName = "targetTemp" then ["temperature", "temp", "value"]
  else if paramName = "temperature" then ["temperature", "temp", "value"]
  else if paramName = "temp" then ["temperature", "temp", "value"]
  else if paramName = "mode" then ["value", "mode"]
  else if paramName = "gasType" then ["value", "type"]
  else if paramName = "active" then ["active", "value", "enabled"]
  else if paramName = "newSchedule" then ["entries", "schedule", "value"]
  else if paramName = "weekday" then ["weekdays", "weekday", "value"]
  else []

/-- `prop && typeof prop === "object" && "value" in prop`. -/
def propOkForState (p : Jx) : Bool := p.isObjLike && p.hasKey "value"

structure StateConfig where
  state_topic : String
  value_template : String
  unit_of_measurement : Option String
deriving Repr, DecidableEq

/-- The record built for the chosen state property in `getCommandStateConfig`. -/
def stateConfigFor (cfg : Cfg) (featurePath : String)
    (prop : Jx) (propertyName : String) : StateConfig :=
  let normalizedUnit := normalizeUnit (prop.getStr "unit") none
  let isArrayProperty :=
    jxIsStr (prop.get "type") "array" && isArrValue prop
  let valueTemplate :=
    if isArrayProperty then
      lb ++ "% if value_json.properties." ++ propertyName
        ++ ".value is defined and value_json.properties." ++ propertyName
        ++ ".value|length > 0 %" ++ rb
        ++ tVal ("value_json.properties." ++ propertyName ++ ".value[0]")
        ++ tEnd
    else
      safeValueTemplate (propertyName ++ ".value")
        (jxIsStr (prop.get "type") "boolean")
  ⟨featureTopic cfg featurePath, valueTemplate, normalizedUnit⟩

/-- `getCommandStateConfig`. -/
def getCommandStateConfig (cfg : Cfg) (f : Feature)
    (paramName featurePath : String) : Option StateConfig :=
  let candidates :=
    let c := semanticMatches paramName
    if c.contains "value" then c else c ++ ["value"]
  let scan : Option (Jx × String) :=
    candidates.findSome? (fun cand =>
      match jxLookup f.properties cand with
      | some p => if propOkForState p then some (p, cand) else none
      | none => none)
  let chosen : Option (Jx × String) :=
    match jxLookup f.properties paramName with
    | some p => if propOkForState p then some (p, paramName) else scan
    | none => scan
  chosen.map (fun pr => stateConfigFor cfg featurePath pr.1 pr.2)

/-! ## The automatic feature pass
(`HomeAssistantDiscovery.generateComponentsFromAllFeatures`) -/

/-- Replace only the first occurrence of `pat`, JS non-global
`String.prototype.replace`. -/
def replaceFirstSub (pat repl : List Char) : List Char → List Char
  | [] => []
  | c :: rest =>
    if pat ≠ [] && pat.isPrefixOf (c :: rest) then
      repl ++ (c :: rest).drop pat.length
    else c :: replaceFirstSub pat repl rest

def strReplaceFirst (s pat repl : String) : String :=
  String.mk (replaceFirstSub pat.toList repl.toList s.toList)

/-- JS truthiness of an optional string (`undefined` and `""` are falsy). -/
def strTruthy : Option String → Bool
  | some sv => sv ≠ ""
  | none => false

/-- JS `a || b` on optional strings. -/
def jsOrStr (a b : Option String) : Option String := if strTruthy a then a else b

/-- The device-overridable hook `device.detectDeviceClassAndUnit`.  The
pass dispatches through the device instance, so the embedding takes the
hook as a function parameter. -/
structure Detection where
  deviceClass : Option String := none
  unitOfMeasurement : Option String := none
deriving Repr, DecidableEq

abbrev DetectFn := String → String → List (String × Jx) → Detection

/-- `getFeatureName` resolves display names through the bundled
`data-points.json` data file; the passes take it as a function parameter
(it feeds only `name` fields). -/
abbrev NameFn := String → String

/-- The filter applied to `features` at the top of
`generateComponentsFromAllFeatures`. -/
def autoFeatureFilter (dps : List String) (f : Feature) : Bool :=
  !isCircuitContainerFeature f.feature && !isListFeature f.feature
    && f.isEnabled && f.properties.length > 0 && !dps.contains f.feature

def countNumbers : List String :=
  ["One", "Two", "Three", "Four", "Five", "Six", "Seven"]

/-- `countNumbers.indexOf(x) + 1` (0 when absent, as JS gives `-1 + 1`). -/
def idxPlusOne : List String → String → Nat
  | [], _ => 0
  | y :: ys, x =>
    if y = x then 1
    else match idxPlusOne ys x with
      | 0 => 0
      | n => n + 1

/-- The `countOne` … `countSeven` keys present in the feature. -/
def countPropKeys (properties : List (String × Jx)) : List String :=
  (properties.map (fun kv => kv.1)).filter
    (fun k => strStartsWith k "count" && countKeyNames.contains k)

/-- The count/timestamp pairing test of the timeseries branch. -/
def hasCountTimestampPattern (properties : List (String × Jx)) : Bool :=
  let cp := countPropKeys properties
  cp ≠ [] && cp.all (fun k =>
    (properties.map (fun kv => kv.1)).contains (strReplaceFirst k "count" "timestamp"))

def timeBasedKeys : List String :=
  ["day", "week", "month", "year", "currentDay", "lastSevenDays",
   "currentMonth", "lastMonth", "currentYear", "lastYear"]

/-- The time-based properties (structured, with an array or numeric
`value`). -/
def timeBasedProps (properties : List (String × Jx)) : List String :=
  timeBasedKeys.filter (fun key =>
    match jxLookup properties key with
    | some p =>
      p.isObjLike
        && (match p.get "value" with
            | some (.jarr _) => true
            | some (.jnum _) => true
            | _ => false)
    | none => false)

/-- The array-joining template of the `device.configuration` branch. -/
def devConfArrayTemplate (propKey : String) : String :=
  let e := "value_json.properties." ++ propKey
  tOpen "value_json" ++ tOpen "value_json.properties" ++ tOpen e
    ++ tOpen (e ++ ".value")
    ++ lb ++ "% if " ++ e ++ ".value is iterable %" ++ rb
    ++ tVal (e ++ ".value|join(\x27, \x27)")
    ++ lb ++ "% else %" ++ rb ++ tVal (e ++ ".value") ++ tEnd
    ++ tEnd ++ tEnd ++ tEnd ++ tEnd

def validPressureUnits : List String :=
  ["Pa", "kPa", "hPa", "bar", "cbar", "mbar", "mmHg", "inHg", "psi", "inHO",
   "dbar"]

def validEnergyUnits : List String :=
  ["Wh", "kWh", "MWh", "GWh", "J", "kJ", "MJ", "GJ", "cal", "kcal", "Mcal",
   "Gcal", "BTU"]

/-- The count/timestamp branch of the `generateComponentsFromAllFeatures`
loop body. -/
def autoCountComponents (cfg : Cfg) (featurePath featureName componentKey : String)
    (properties : List (String × Jx)) : List (String × Component) :=
  let countProperties := countPropKeys properties
  let unit := (countProperties.head?.bind (jxLookup properties)).bind
    (fun p => p.getStr "unit")
  let unitOfMeasurement := normalizeUnit unit none
  (sortStrings countProperties).map (fun countKey =>
    let countNumber := strReplaceFirst countKey "count" ""
    let countIndex := idxPlusOne countNumbers countNumber
    let key := componentKey ++ "_count_" ++ Nat.repr countIndex
    let base : Component :=
      { platform := "sensor"
        unique_id := some (uidOf cfg key)
        name := some (featureName ++ " Count " ++ Nat.repr countIndex)
        state_topic := some (featureTopic cfg featurePath)
        value_template :=
          some (tVal ("value_json.properties." ++ countKey ++ ".value | int"))
        state_class := some "measurement"
        unit_of_measurement := unitOfMeasurement
        entity_category := some "diagnostic"
        ent_cat := some "diagnostic" }
    let comp :=
      if isServiceTechnicianFeature featurePath then
        { base with enabled_by_default := some false, en := some false }
      else base
    (key, comp))

/-- The `device.configuration` branch of the loop body. -/
def autoDevConfComponents (cfg : Cfg) (featurePath componentKey
    baseFeatureName : String) (properties : List (String × Jx)) :
    List (String × Component) :=
  properties.filterMap (fun kv =>
    let propValue := kv.2
    if !(propValue.isObjLike && propValue.hasKey "type"
        && propValue.hasKey "value") then none
    else
      let propIsBool := jxIsStr (propValue.get "type") "boolean"
      let propIsArray := jxIsStr (propValue.get "type") "array"
      let propPlatform := if propIsBool then "binary_sensor" else "sensor"
      let deviceClass :=
        if propIsBool then
          if strIncludes (jsToLower kv.1) "active" then some "heat" else none
        else none
      let valueTemplate :=
        if propIsBool then safeValueTemplate (kv.1 ++ ".value") true
        else if propIsArray then devConfArrayTemplate kv.1
        else safeValueTemplate (kv.1 ++ ".value") false
      let propComponentKey := componentKey ++ "_" ++ kv.1
      some (propComponentKey,
        { platform := propPlatform
          unique_id := some (uidOf cfg propComponentKey)
          name := some (baseFeatureName ++ " " ++ labelize kv.1)
          state_topic := some (featureTopic cfg featurePath)
          value_template := some valueTemplate
          device_class := deviceClass
          entity_category := some "diagnostic"
          ent_cat := some "diagnostic" }))

/-- One entry of the time-based branch: the per-key body of its `map`,
with the branch-wide device class and unit passed in. -/
def autoTimeComponentFor (cfg : Cfg) (featurePath featureName componentKey
    platform : String) (properties : List (String × Jx))
    (finalTimeDeviceClass finalTimeUnit : Option String)
    (timeKey : String) : String × Component :=
  let isArrayValue :=
    match jxLookup properties timeKey with
    | some tp => tp.isObjLike && tp.hasKey "value" && isArrValue tp
    | none => false
  let timePropertyPath :=
    if isArrayValue then timeKey ++ ".value[0]" else timeKey ++ ".value"
  let timeComponentKey := componentKey ++ "_" ++ timeKey
  let timeFeatureName := featureName ++ " (" ++ labelize timeKey ++ ")"
  let base : Component :=
    { platform := platform
      unique_id := some (uidOf cfg timeComponentKey)
      name := some timeFeatureName
      state_topic := some (featureTopic cfg featurePath)
      value_template := some (safeValueTemplate timePropertyPath false) }
  let base :=
    if strTruthy finalTimeDeviceClass && strTruthy finalTimeUnit then
      { base with device_class := finalTimeDeviceClass,
                  unit_of_measurement := finalTimeUnit }
    else if strTruthy finalTimeUnit then
      { base with unit_of_measurement := finalTimeUnit }
    else base
  let base :=
    if isServiceTechnicianFeature featurePath then
      { base with enabled_by_default := some false, en := some false }
    else base
  (timeComponentKey,
    { base with entity_category := some "diagnostic",
                ent_cat := some "diagnostic" })

/-- The time-based branch of the loop body. -/
def autoTimeComponents (cfg : Cfg) (featurePath featureName componentKey
    platform : String) (properties : List (String × Jx)) :
    List (String × Component) :=
  let timeBasedProperties := timeBasedProps properties
  let rawUnit := (timeBasedProperties.findSome? (fun key =>
      (jxLookup properties key).bind (fun p =>
        if (p.get "unit").isSome then some p else none))).bind
    (fun p => p.getStr "unit")
  let timeBasedDeviceClass :=
    match rawUnit with
    | some ru => (determineDeviceClass featurePath ru).deviceClass
    | none => none
  let timeBasedUnit :=
    match rawUnit with
    | some ru => normalizeUnit (some ru) timeBasedDeviceClass
    | none => none
  let finalTimeDeviceClass := jsOrStr timeBasedDeviceClass
    (if strIncludes featurePath "consumption" && strIncludes featurePath "power" then
      some "energy"
    else if strIncludes featurePath "production" && strIncludes featurePath "heat" then
      some "energy"
    else if strIncludes featurePath "production" && strIncludes featurePath "power" then
      some "power"
    else none)
  let finalTimeUnit := jsOrStr timeBasedUnit
    (if finalTimeDeviceClass = some "energy" then some "kWh"
    else if finalTimeDeviceClass = some "power" then some "W"
    else none)
  timeBasedProperties.map
    (autoTimeComponentFor cfg featurePath featureName componentKey platform
      properties finalTimeDeviceClass finalTimeUnit)

/-- The property-path / device-class probe of the generic branch. -/
def autoPathInfo (featurePath platform : String)
    (properties : List (String × Jx)) : Option (String × Option String) :=
  if platform = "binary_sensor" then
    (findBinarySensorPropertyPath featurePath properties).map
      (fun b => (b.path, b.deviceClass))
  else
    let propertyPath := findSensorPropertyPath featurePath properties
    if (strIncludes featurePath "temperature"
          || strIncludes featurePath "pressure")
        && propertyPath = "status.value" then
      let statusValue := (jxLookup properties "status").bind
        (fun p => p.get "value")
      let hasValue := (jxLookup properties "value").isSome
      let statusIsNum :=
        match statusValue with
        | some (.jnum _) => true
        | _ => false
      if !hasValue && !statusIsNum then none
      else some (propertyPath, none)
    else some (propertyPath, none)

/-- The component the generic branch builds for a resolved property path. -/
def autoGenericBase (cfg : Cfg) (detect : DetectFn) (featurePath featureName
    componentKey platform propertyPath : String)
    (initialDeviceClass : Option String)
    (properties : List (String × Jx)) : Component :=
  let detection := detect featurePath propertyPath properties
  let deviceClass := jsOrStr detection.deviceClass initialDeviceClass
  let unit0 := detection.unitOfMeasurement
  let valueTemplate :=
    if unit0 = some "%" || strIncludes featurePath "modulation" then
      percentageValueTemplate propertyPath
    else if platform = "sensor" then
      let propKey := (jsSplitDot propertyPath).headD ""
      let isNumericProperty :=
        match jxLookup properties propKey with
        | some p => p.isObjLike && jxIsStr (p.get "type") "number"
        | none => false
      if isNumericProperty && strIncludes propertyPath ".value"
          && !strIncludes propertyPath "[" then
        if propertyPath = "value.value" then
          tVal "value_json.properties.value.value | float"
        else
          tVal ("value_json.properties."
            ++ strReplaceFirst propertyPath ".value" "" ++ ".value | float")
      else safeValueTemplate propertyPath false
    else safeValueTemplate propertyPath true
  let unit1 :=
    if deviceClass = some "pressure" then
      match unit0 with
      | some u => if validPressureUnits.contains u then some u else some "bar"
      | none => some "bar"
    else if deviceClass = some "energy" then
      match unit0 with
      | some u => if validEnergyUnits.contains u then some u else some "kWh"
      | none => some "kWh"
    else unit0
  let base : Component :=
    { platform := platform
      unique_id := some (uidOf cfg componentKey)
      name := some featureName
      state_topic := some (featureTopic cfg featurePath)
      value_template := some valueTemplate }
  let base :=
    if strTruthy deviceClass && strTruthy unit1 then
      { base with device_class := deviceClass, unit_of_measurement := unit1 }
    else if strTruthy unit1 then { base with unit_of_measurement := unit1 }
    else base
  let base :=
    if platform = "sensor" && !strTruthy deviceClass then
      let propKey := (jsSplitDot propertyPath).headD ""
      let okState :=
        match jxLookup properties propKey with
        | some p =>
          p.isObjLike && jxIsStr (p.get "type") "number"
            && (match p.get "value" with
                | some (.jnum _) => true
                | _ => false)
            && !strIncludes propertyPath "["
        | none => false
      if okState then { base with state_class := some "measurement" }
      else base
    else base
  if isServiceTechnicianFeature featurePath then
    { base with enabled_by_default := some false, en := some false,
                entity_category := some "diagnostic",
                ent_cat := some "diagnostic" }
  else
    match determineEntityCategory featurePath platform deviceClass
        properties with
    | some ec => { base with entity_category := some ec, ent_cat := some ec }
    | none => base

/-- The generic branch of the loop body. -/
def autoGenericComponent (cfg : Cfg) (detect : DetectFn) (featurePath
    featureName componentKey platform : String)
    (properties : List (String × Jx)) : List (String × Component) :=
  match autoPathInfo featurePath platform properties with
  | none => []
  | some (propertyPath, initialDeviceClass) =>
    [(componentKey,
      autoGenericBase cfg detect featurePath featureName componentKey platform
        propertyPath initialDeviceClass properties)]

/-- The assignments the `generateComponentsFromAllFeatures` loop body makes
for one feature, in order. -/
def autoComponentsForFeature (cfg : Cfg) (detect : DetectFn) (fname : NameFn)
    (features : List Feature) (f : Feature) : List (String × Component) :=
  let featurePath := f.feature
  let properties := f.properties
  let platform := determinePlatform featurePath properties
  let componentKey := generateComponentKey featurePath
  let featureName :=
    match getCircuitNameForFeature featurePath features with
    | some cn => cn ++ " " ++ fname featurePath
    | none => fname featurePath
  if hasCountTimestampPattern properties && platform = "sensor" then
    autoCountComponents cfg featurePath featureName componentKey properties
  else if featurePath = "device.configuration" then
    autoDevConfComponents cfg featurePath componentKey (fname featurePath)
      properties
  else if (timeBasedProps properties).length > 1 && platform = "sensor" then
    autoTimeComponents cfg featurePath featureName componentKey platform
      properties
  else
    autoGenericComponent cfg detect featurePath featureName componentKey
      platform properties

/-- `generateComponentsFromAllFeatures`. -/
def generateComponentsFromAllFeatures (cfg : Cfg) (detect : DetectFn)
    (fname : NameFn) (dps : List String) (features : List Feature) : Components :=
  (features.filter (autoFeatureFilter dps)).foldl
    (fun comps f => setAll comps (autoComponentsForFeature cfg detect fname features f))
    []

/-! ## The command pass
(`HomeAssistantDiscovery.generateCommandComponentsFromFeatures`) -/

/-- The pass state: the (mutated) input record plus the accumulating
`commandComponents` record. -/
structure CmdState where
  components : Components
  commandComponents : Components
deriving Repr, DecidableEq

/-- The `componentsByFeature` grouping: entries of the input record whose
`state_topic` decodes to the feature path, in record order. -/
def componentsForFeature (components : Components) (featurePath : String) :
    List (String × Component) :=
  components.filter (fun kv => extractFeaturePath kv.2.state_topic = some featurePath)

/-- The shared `number` component literal (`setCurve`, single- and
multi-parameter commands build the identical object). -/
def numberComponent (cfg : Cfg) (componentKey featureName commandName paramName
    featurePath : String) (paramDef : CommandParam) (sc : StateConfig) : Component :=
  { platform := "number"
    unique_id := some (uidOf cfg componentKey)
    name := some (buildCommandComponentName featureName commandName (some paramName))
    command_topic := some (commandTopicOf cfg featurePath commandName)
    command_template := some (buildSingleParamCommandTemplate paramName paramDef.type)
    boxMode := some "box"
    minVal := paramDef.constraintMin
    maxVal := paramDef.constraintMax
    step := paramDef.constraintStepping
    state_topic := some sc.state_topic
    value_template := some sc.value_template
    unit_of_measurement := sc.unit_of_measurement }

/-- The `select` component literal. -/
def selectComponent (cfg : Cfg) (componentKey featureName commandName paramName
    featurePath : String) (paramDef : CommandParam) (sc : StateConfig) : Component :=
  { platform := "select"
    unique_id := some (uidOf cfg componentKey)
    name := some (buildCommandComponentName featureName commandName (some paramName))
    options := some (paramDef.constraintEnum.getD [])
    command_topic := some (commandTopicOf cfg featurePath commandName)
    command_template := some (buildSingleParamCommandTemplate paramName paramDef.type)
    state_topic := some sc.state_topic
    value_template := some sc.value_template
    unit_of_measurement := sc.unit_of_measurement }

/-- The `switch` component literal. -/
def switchComponent (cfg : Cfg) (componentKey featureName commandName paramName
    featurePath : String) (sc : StateConfig) : Component :=
  { platform := "switch"
    unique_id := some (uidOf cfg componentKey)
    name := some (buildCommandComponentName featureName commandName (some paramName))
    command_topic := some (commandTopicOf cfg featurePath commandName)
    payload_on := some (lb ++ "\"" ++ paramName ++ "\": true" ++ rb)
    payload_off := some (lb ++ "\"" ++ paramName ++ "\": false" ++ rb)
    state_topic := some sc.state_topic
    value_template := some sc.value_template
    unit_of_measurement := sc.unit_of_measurement }

/-- The `text` component literal. -/
def textComponent (cfg : Cfg) (componentKey featureName commandName paramName
    featurePath : String) (paramDef : CommandParam) (sc : StateConfig) : Component :=
  { platform := "text"
    unique_id := some (uidOf cfg componentKey)
    name := some (buildCommandComponentName featureName commandName (some paramName))
    command_topic := some (commandTopicOf cfg featurePath commandName)
    command_template := some (buildSingleParamCommandTemplate paramName paramDef.type)
    state_topic := some sc.state_topic
    value_template := some sc.value_template
    unit_of_measurement := sc.unit_of_measurement }

/-- The schedule sensor's state template. -/
def scheduleSensorTemplate : String :=
  lb ++ "% if value_json.properties.entries.value is defined %" ++ rb
    ++ lb ++ "% set sched = value_json.properties.entries.value %" ++ rb
    ++ lb ++ "% if sched is mapping %" ++ rb
    ++ tVal "sched.keys() | list | length" ++ " days"
    ++ lb ++ "% else %" ++ rb ++ "configured" ++ tEnd
    ++ lb ++ "% else %" ++ rb ++ "not configured" ++ tEnd

/-- The `key in either record` guard of the command pass. -/
def keyTaken (st : CmdState) (key : String) : Bool :=
  (getC st.components key).isSome || (getC st.commandComponents key).isSome

def addCommandComponent (st : CmdState) (key : String) (c : Component) : CmdState :=
  { st with commandComponents := setC st.commandComponents key c }

/-- The `hasValue` test of the Schedule branch. -/
def scheduleHasValue (entriesValue : Option Jx) : Bool :=
  match entriesValue with
  | none => false
  | some .jnull => false
  | some (.jobj fields) => fields.length > 0
  | some (.jarr xs) => xs.length > 0
  | some _ => true

/-- The single-parameter branch after the Schedule special case. -/
def processSingleParam (cfg : Cfg) (f : Feature) (sensorKeys : List String)
    (featureName baseKey commandName : String) (isServiceCommand : Bool)
    (paramName : String) (paramDef : CommandParam) (st : CmdState) : CmdState :=
  let componentKey := jsToLower (baseKey ++ "_" ++ commandName ++ "_" ++ paramName)
  if keyTaken st componentKey then st
  else
    let stateConfig := getCommandStateConfig cfg f paramName f.feature
    let enhanced : Option CmdState :=
      if sensorKeys ≠ [] && stateConfig.isSome then
        let candidates := paramName :: semanticMatches paramName
        let hasMatchingProperty := candidates.any (fun cand =>
          match jxLookup f.properties cand with
          | some p => propOkForState p
          | none => false)
        if hasMatchingProperty then
          match sensorKeys.head? with
          | none => some st
          | some key0 =>
            match getC st.components key0 with
            | none => some st
            | some ec =>
              if strTruthy ec.command_topic then some st
              else
                let ec := { ec with
                  command_topic := some (commandTopicOf cfg f.feature commandName) }
                let ec :=
                  if paramDef.type = "number" then
                    { ec with
                      command_template := some
                        (buildSingleParamCommandTemplate paramName paramDef.type)
                      minVal :=
                        match paramDef.constraintMin with
                        | some m => some m
                        | none => ec.minVal
                      maxVal :=
                        match paramDef.constraintMax with
                        | some m => some m
                        | none => ec.maxVal
                      step :=
                        match paramDef.constraintStepping with
                        | some m => some m
                        | none => ec.step }
                  else ec
                let ec := addServiceCommandProperties ec isServiceCommand
                some { st with components := setC st.components key0 ec }
        else none
      else none
    match enhanced with
    | some st2 => st2
    | none =>
      match stateConfig with
      | none => st
      | some sc =>
        if paramDef.constraintEnum.isSome && paramDef.type = "string" then
          addCommandComponent st componentKey (addServiceCommandProperties
            (selectComponent cfg componentKey featureName commandName paramName
              f.feature paramDef sc) isServiceCommand)
        else if paramDef.type = "boolean" then
          addCommandComponent st componentKey (addServiceCommandProperties
            (switchComponent cfg componentKey featureName commandName paramName
              f.feature sc) isServiceCommand)
        else if paramDef.type = "number" then
          addCommandComponent st componentKey (addServiceCommandProperties
            (numberComponent cfg componentKey featureName commandName paramName
              f.feature paramDef sc) isServiceCommand)
        else
          addCommandComponent st componentKey (addServiceCommandProperties
            (textComponent cfg componentKey featureName commandName paramName
              f.feature paramDef sc) isServiceCommand)

/-- One parameter step of the multi-parameter branch. -/
def processMultiParam (cfg : Cfg) (f : Feature) (featureName baseKey
    commandName : String) (isServiceCommand : Bool) (st : CmdState)
    (pp : String × CommandParam) : CmdState :=
  let paramName := pp.1
  let paramDef := pp.2
  match getCommandStateConfig cfg f paramName f.feature with
  | none => st
  | some sc =>
    let paramComponentKey :=
      jsToLower (baseKey ++ "_" ++ commandName ++ "_" ++ paramName)
    if keyTaken st paramComponentKey then st
    else if paramDef.constraintEnum.isSome && paramDef.type = "string" then
      addCommandComponent st paramComponentKey (addServiceCommandProperties
        (selectComponent cfg paramComponentKey featureName commandName paramName
          f.feature paramDef sc) isServiceCommand)
    else if paramDef.type = "number" then
      addCommandComponent st paramComponentKey (addServiceCommandProperties
        (numberComponent cfg paramComponentKey featureName commandName paramName
          f.feature paramDef sc) isServiceCommand)
    else if paramDef.type = "boolean" then
      addCommandComponent st paramComponentKey (addServiceCommandProperties
        (switchComponent cfg paramComponentKey featureName commandName paramName
          f.feature sc) isServiceCommand)
    else st

/-- The branches of the command loop that follow the `setCurve` special
case. -/
def processCommandTail (cfg : Cfg) (f : Feature) (sensorKeys : List String)
    (featureName baseKey commandName : String) (isServiceCommand : Bool)
    (params : List (String × CommandParam)) (st : CmdState) : CmdState :=
  match params with
  | [(paramName, paramDef)] =>
    if paramDef.type = "Schedule" then
      let entriesProp := jxLookup f.properties "entries"
      let isScheduleProp :=
        match entriesProp with
        | some ep => jxIsStr (ep.get "type") "Schedule"
        | none => false
      let hasValue := scheduleHasValue (entriesProp.bind (fun ep => ep.get "value"))
      if isScheduleProp && hasValue then
        let scheduleSensorKey := jsToLower (baseKey ++ "_schedule")
        if keyTaken st scheduleSensorKey then st
        else
          let component : Component :=
            { platform := "sensor"
              unique_id := some (uidOf cfg scheduleSensorKey)
              name := some (featureName ++ " Schedule")
              state_topic := some (featureTopic cfg f.feature)
              value_template := some scheduleSensorTemplate
              json_attributes_topic := some (featureTopic cfg f.feature)
              json_attributes_template :=
                some (tVal "value_json.properties.entries.value | tojson") }
          addCommandComponent st scheduleSensorKey
            (addServiceCommandProperties component isServiceCommand)
      else st
    else
      processSingleParam cfg f sensorKeys featureName baseKey commandName
        isServiceCommand paramName paramDef st
  | _ =>
    params.foldl
      (processMultiParam cfg f featureName baseKey commandName isServiceCommand)
      st

/-- One executable command of one feature (the body of the
`for (const [commandName, command] of executableCommands)` loop). -/
def processCommand (cfg : Cfg) (f : Feature) (hasClimate : Bool)
    (sensorKeys : List String) (featureName baseKey : String) (st : CmdState)
    (ckv : String × Command) : CmdState :=
  let commandName := ckv.1
  let command := ckv.2
  if commandName = "setMode" && hasClimate then st
  else
    let isServiceCommand := isServiceTechnicianCommand commandName f.feature
    let params := command.params
    if params = [] then
      let componentKey := jsToLower (baseKey ++ "_" ++ commandName)
      if keyTaken st componentKey then st
      else
        let component : Component :=
          { platform := "button"
            unique_id := some (uidOf cfg componentKey)
            name := some (buildCommandComponentName featureName commandName none)
            command_topic := some (commandTopicOf cfg f.feature commandName)
            payload_press := some (lb ++ rb) }
        addCommandComponent st componentKey
          (addServiceCommandProperties component isServiceCommand)
    else
      if commandName = "setCurve" then
        match params.find? (fun p => p.1 = "slope"),
            params.find? (fun p => p.1 = "shift") with
        | some slopeParam, some shiftParam =>
          [slopeParam, shiftParam].foldl (fun st2 pp =>
            let componentKey :=
              jsToLower (baseKey ++ "_" ++ commandName ++ "_" ++ pp.1)
            if keyTaken st2 componentKey then st2
            else
              match getCommandStateConfig cfg f pp.1 f.feature with
              | none => st2
              | some sc =>
                addCommandComponent st2 componentKey (addServiceCommandProperties
                  (numberComponent cfg componentKey featureName commandName pp.1
                    f.feature pp.2 sc) isServiceCommand)) st
        | _, _ =>
          processCommandTail cfg f sensorKeys featureName baseKey commandName
            isServiceCommand params st
      else
        processCommandTail cfg f sensorKeys featureName baseKey commandName
          isServiceCommand params st

/-- One feature of the command pass. -/
def processFeature (cfg : Cfg) (fname : NameFn) (features : List Feature)
    (comps0 : Components) (st : CmdState) (f : Feature) : CmdState :=
  if isCircuitContainerFeature f.feature || isListFeature f.feature then st
  else
    let executableCommands := getExecutableCommands f
    if executableCommands = [] then st
    else
      let featureComponents := componentsForFeature comps0 f.feature
      let hasClimate := featureComponents.any (fun kv => kv.2.platform = "climate")
      let featureName :=
        match getCircuitNameForFeature f.feature features with
        | some cn => cn ++ " " ++ fname f.feature
        | none => fname f.feature
      let baseKey := generateComponentKey f.feature
      let sensorKeys :=
        (featureComponents.filter (fun kv => kv.2.platform = "sensor")).map
          (fun kv => kv.1)
      executableCommands.foldl
        (processCommand cfg f hasClimate sensorKeys featureName baseKey) st

/-- `generateCommandComponentsFromFeatures`.  The returned state carries
both the `commandComponents` record the TS function returns and the input
record as mutated through the sensor-enhancement branch. -/
def generateCommandComponentsFromFeatures (cfg : Cfg) (fname : NameFn)
    (features : List Feature) (components : Components) : CmdState :=
  features.foldl (processFeature cfg fname features components)
    ⟨components, []⟩

/-! ## `enhanceComponentsWithCommands` and the final filter -/

/-- The `setMode` block of the `enhanceComponentsWithCommands` body. -/
def enhanceClimateMode (cfg : Cfg) (featurePath : String) (feature : Feature)
    (c : Component) : Component :=
  if strTruthy c.mode_command_topic then c
  else
    let modeCommand :=
      match jxLookupCmd feature.commands "setMode" with
      | some mc => some mc
      | none =>
        (feature.commands.find? (fun (kv : String × Command) =>
          kv.2.params.any (fun p => p.1 = "mode"))).map
          (fun (kv : String × Command) => kv.2)
    match modeCommand with
    | some mc =>
      if mc.isExecutable then
        let pd := mc.params.head?.getD ("mode", ⟨"string", none, none, none, none⟩)
        { c with
          mode_command_topic :=
            some (commandTopicOf cfg featurePath mc.name)
          mode_command_template :=
            some (buildModeCommandTemplate pd.1 pd.2.constraintEnum) }
      else c
    | none => c

/-- The temperature block of the `enhanceComponentsWithCommands` body. -/
def enhanceClimateTemperature (cfg : Cfg) (featurePath : String)
    (feature : Feature) (c1 : Component) : Component :=
  if strTruthy c1.temperature_command_topic then c1
  else
    let temperatureCommand := feature.commands.find? (fun kv =>
      match kv.2.params with
      | [(pn, pd)] =>
        kv.2.isExecutable && pd.type = "number"
          && strIncludes (jsToLower pn) "temperature"
      | _ => false)
    match temperatureCommand with
    | some tkv =>
      let pd := tkv.2.params.head?.getD
        ("targetTemperature", ⟨"number", none, none, none, none⟩)
      { c1 with
        temperature_command_topic :=
          some (commandTopicOf cfg featurePath tkv.2.name)
        temperature_command_template :=
          some (buildSingleParamCommandTemplate pd.1 pd.2.type) }
    | none => c1

/-- The per-component body of `enhanceComponentsWithCommands`. -/
def enhanceClimateComponent (cfg : Cfg) (features : List Feature)
    (c : Component) : Component :=
  if c.platform ≠ "climate" then c
  else
    match extractFeaturePath c.state_topic with
    | none => c
    | some featurePath =>
      match featureMapGet features featurePath with
      | none => c
      | some feature =>
        enhanceClimateTemperature cfg featurePath feature
          (enhanceClimateMode cfg featurePath feature c)

/-- `enhanceComponentsWithCommands`: the in-place mutation of every climate
component. -/
def enhanceComponentsWithCommands (cfg : Cfg) (features : List Feature)
    (components : Components) : Components :=
  components.map (fun kv => (kv.1, enhanceClimateComponent cfg features kv.2))

/-- The final safety filter of `generateDeviceDiscoveryConfig`. -/
def filterContainers (components : Components) : Components :=
  components.filter (fun kv =>
    match extractFeaturePath kv.2.state_topic with
    | some p => !(isCircuitContainerFeature p || isListFeature p)
    | none => true)

/-- The tail of `generateDeviceDiscoveryConfig` from the automatic feature
pass on: `pre` stands for the component record assembled by the earlier
decorator, enhancement and device-specific passes, and `dps` for the
feature paths those passes covered. -/
def discoveryComponents (cfg : Cfg) (detect : DetectFn) (fname : NameFn)
    (pre : Components) (dps : List String) (features : List Feature) :
    Components :=
  let comps1 :=
    setAll pre (generateComponentsFromAllFeatures cfg detect fname dps features)
  let st := generateCommandComponentsFromFeatures cfg fname features comps1
  let comps2 := setAll st.components st.commandComponents
  filterContainers (enhanceComponentsWithCommands cfg features comps2)

/-! ## Circuit sensor expansion
(`HeatingDevice.generateComponentsFromMetadata` /
`generateCircuitSensorComponents`, `src/devices/heating.ts`) — claim C8 -/

/-- The `@CircuitSensor` metadata record. -/
structure CircuitSensorMeta where
  featurePathTemplate : String
  platform : String
  deviceClass : Option String
  unitOfMeasurement : Option String
  componentKeyTemplate : String
  valueTemplate : Option String := none
deriving Repr, DecidableEq

/-- The `@CircuitSensor` room-temperature decorator of `HeatingDevice`. -/
def roomTempCircuitSensorMeta : CircuitSensorMeta :=
  { featurePathTemplate := "heating.circuits.N.sensors.temperature.room"
    platform := "sensor"
    deviceClass := some "temperature"
    unitOfMeasurement := some "°C"
    componentKeyTemplate := "circuit_{id}_room_temp" }

def intToJsString (n : Int) : String :=
  if n < 0 then "-" ++ Nat.repr (-n).toNat else Nat.repr n.toNat

/-- JS `parseInt(s, 10)`: skip whitespace, optional sign, leading digits;
`none` is `NaN`. -/
def jsParseInt (s : String) : Option Int :=
  let cs := s.toList.dropWhile isJsSpace
  match cs with
  | '-' :: rest =>
    let d := rest.takeWhile Char.isDigit
    if d = [] then none else some (-(digitsToNat 0 d : Int))
  | '+' :: rest =>
    let d := rest.takeWhile Char.isDigit
    if d = [] then none else some ((digitsToNat 0 d : Int))
  | _ =>
    let d := cs.takeWhile Char.isDigit
    if d = [] then none else some ((digitsToNat 0 d : Int))

/-- `parseInt(itemId, 10) + 1` interpolated into a template literal. -/
def circuitNumberStr (itemId : String) : String :=
  match jsParseInt itemId with
  | some n => intToJsString (n + 1)
  | none => "NaN"

/-- JS template-literal stringification of the values reaching `name`
interpolations (arrays and objects are approximated; they feed only
display names). -/
def jxToDisplay : Jx → String
  | .jstr sv => sv
  | .jnum n => intToJsString n
  | .jbool b => if b then "true" else "false"
  | .jnull => "null"
  | .jarr _ => ""
  | .jobj _ => "[object Object]"

/-- `HeatingCircuit.getName` as implemented by the `@PropertyRetrieval`
decorator: look up `heating.circuits.{id}` in the device's feature map,
require it enabled, and read the `name` property via `getPropertyValue`. -/
def circuitGetName (features : List Feature) (circuitId : String) : Jx :=
  match featureMapGet features ("heating.circuits." ++ circuitId) with
  | none => .jnull
  | some feat =>
    if feat.isEnabled then getPropertyValue (some feat) "name" else .jnull

/-- The `valueProperty` guard of the circuit sensor builder: the feature's
`value` property must be truthy and carry a `value` member that is neither
`undefined` nor `null`. -/
def circuitValueOk (feature : Feature) : Bool :=
  match jxLookup feature.properties "value" with
  | some vp =>
    vp.truthy
      && (match vp.get "value" with
          | some .jnull => false
          | some _ => true
          | none => false)
  | none => false

/-- The component builder of `generateCircuitSensorComponents`. -/
def circuitSensorBuilder (cfg : Cfg) (fname : NameFn) (features : List Feature)
    (metadata : CircuitSensorMeta) (itemId featurePath : String)
    (feature : Feature) (componentKey : String) :
    Option (List (String × Component)) :=
  if !circuitValueOk feature then none
  else
    let circuitName := circuitGetName features itemId
    let displayName :=
      if circuitName.truthy then jxToDisplay circuitName
      else "Circuit " ++ circuitNumberStr itemId
    let fn := fname metadata.featurePathTemplate
    let baseName := if fn ≠ "" then fn else "Sensor"
    let valueTemplate :=
      match metadata.valueTemplate with
      | some vt =>
        if vt ≠ "" then vt
        else safeValueTemplate "value.value" (metadata.platform = "binary_sensor")
      | none =>
        safeValueTemplate "value.value" (metadata.platform = "binary_sensor")
    let base : Component :=
      { platform := metadata.platform
        unique_id := some (uidOf cfg componentKey)
        name := some (displayName ++ " " ++ baseName)
        state_topic := some (featureTopic cfg featurePath)
        value_template := some valueTemplate }
    let base :=
      if strTruthy metadata.deviceClass then
        { base with device_class := metadata.deviceClass }
      else base
    let base :=
      if strTruthy metadata.unitOfMeasurement then
        match normalizeUnit metadata.unitOfMeasurement metadata.deviceClass with
        | some nu => { base with unit_of_measurement := some nu }
        | none => base
      else base
    some [(componentKey, base)]

/-- One iteration of the `generateComponentsFromMetadata` item loop. -/
def circuitMetaStep (cfg : Cfg) (fname : NameFn) (features : List Feature)
    (metadata : CircuitSensorMeta) (comps : Components) (itemId : String) :
    Components :=
  let featurePath := strReplace metadata.featurePathTemplate "N" itemId
  match features.find? (fun ft => ft.feature = featurePath && ft.isEnabled) with
  | none => comps
  | some feature =>
    let componentKey := strReplace metadata.componentKeyTemplate "{id}" itemId
    match circuitSensorBuilder cfg fname features metadata itemId featurePath
        feature componentKey with
    | none => comps
    | some itemComponents => setAll comps itemComponents

/-- `generateComponentsFromMetadata` for one `@CircuitSensor` metadata
entry: iterate the available item ids, substitute them into the feature
path and component key templates, and keep the builder's output for
enabled backing features only. -/
def componentsFromCircuitMetadata (cfg : Cfg) (fname : NameFn)
    (features : List Feature) (metadata : CircuitSensorMeta)
    (availableItems : List String) : Components :=
  availableItems.foldl (circuitMetaStep cfg fname features metadata) []

/-! ## Theorems -/

/-- C3: for every model identifier and role list, classification returns
Hybrid when the roles carry both a boiler-type and a heat-pump-type marker;
otherwise it tries the rules in the fixed order fuel cell → gas boiler →
heat pump → hybrid catch-all, returning the variant of the first rule whose
model regex matches or whose role-set is contained in the roles; and on any
input where no rule matches it falls back to the generic Heating variant
(the catch-all's `/.*/` pattern makes that fallback unreachable, which the
specification-side definition reflects by its dead final branch). -/
theorem createDevice_classification_spec (roles : List String) (modelId : String) :
    createDevice roles modelId = createDeviceSpecced roles modelId := by
  unfold createDevice createDeviceSpecced
  cases hb : roles.any (fun r => strIncludes r "type:boiler") <;>
  cases hh : roles.any (fun r => strIncludes r "type:heatpump") <;>
  simp only [hb, hh, Bool.and_self, Bool.and_true, Bool.and_false, Bool.true_and,
    Bool.false_and, if_true, if_false, deviceTypes, List.find?, modelPatternTest,
    testAnyWord, List.any_nil, Bool.false_or, Bool.or_false] <;>
  first
  | rfl
  | (cases h1 : ["Vitovalor", "Vitocharge", "Vitoblo"].any
        (fun w => strIncludes (jsToLower modelId) (jsToLower w)) <;>
      cases h2 : ["Vitodens", "VScotH", "Vitocrossal", "VDensH", "Vitopend",
          "VPendH", "OT_Heating_System"].any
        (fun w => strIncludes (jsToLower modelId) (jsToLower w)) <;>
      cases h3 : ["Vitocal", "VBC70", "V200WO1A", "CU401B"].any
        (fun w => strIncludes (jsToLower modelId) (jsToLower w)) <;>
      cases h4 : ["type:boiler"].all (fun role => roles.contains role) <;>
      cases h5 : ["type:heatpump"].all (fun role => roles.contains role) <;>
      simp_all)

/-- C6: `normalizeUnit "kilowattHour" "energy" = "kWh"`,
`normalizeUnit "cubicMeter" "energy"` is absent, and for the energy and
pressure device classes the result is always validated against the
class-appropriate whitelist, with absent returned whenever the mapped unit
fails it. -/
theorem normalizeUnit_whitelists :
    normalizeUnit (some "kilowattHour") (some "energy") = some "kWh"
    ∧ normalizeUnit (some "cubicMeter") (some "energy") = none
    ∧ (∀ u v, normalizeUnit (some u) (some "energy") = some v →
        isEnergyWhitelisted v = true)
    ∧ (∀ u n, unitMapLookup (jsToLower u) = some n →
        isEnergyWhitelisted n = false →
        normalizeUnit (some u) (some "energy") = none)
    ∧ (∀ u v, normalizeUnit (some u) (some "pressure") = some v →
        isPressureWhitelisted v = true)
    ∧ (∀ u n, unitMapLookup (jsToLower u) = some n →
        isPressureWhitelisted n = false →
        normalizeUnit (some u) (some "pressure") = none) := by
  refine ⟨by decide, by decide, ?_, ?_, ?_, ?_⟩
  · intro u v h
    by_cases hu : u = ""
    · simp [normalizeUnit, hu] at h
    · rcases hm : unitMapLookup (jsToLower u) with _ | n
      · simp [normalizeUnit, hu, hm] at h
      · by_cases hw : isEnergyWhitelisted n
        · simp [normalizeUnit, hu, hm, hw] at h
          subst h
          exact hw
        · simp [normalizeUnit, hu, hm, hw] at h
  · intro u n hm hw
    by_cases hu : u = ""
    · simp [normalizeUnit, hu]
    · simp [normalizeUnit, hu, hm, hw]
  · intro u v h
    by_cases hu : u = ""
    · simp [normalizeUnit, hu] at h
    · rcases hm : unitMapLookup (jsToLower u) with _ | n
      · simp [normalizeUnit, hu, hm] at h
      · by_cases hw : isPressureWhitelisted n
        · simp [normalizeUnit, hu, hm, hw] at h
          subst h
          exact hw
        · simp [normalizeUnit, hu, hm, hw] at h
  · intro u n hm hw
    by_cases hu : u = ""
    · simp [normalizeUnit, hu]
    · simp [normalizeUnit, hu, hm, hw]

/-- Witness for C6 at concrete units: `"hour"` maps to `"h"`, which the
energy whitelist accepts, and `"liter"` maps to `"L"`, which it rejects. -/
theorem normalizeUnit_whitelists_witness :
    isEnergyWhitelisted "h" = true
    ∧ normalizeUnit (some "liter") (some "energy") = none
    ∧ isPressureWhitelisted "°C" = false
    ∧ normalizeUnit (some "celsius") (some "pressure") = none := by
  refine ⟨?_, ?_, ?_, ?_⟩
  · exact normalizeUnit_whitelists.2.2.1 "hour" "h" (by decide)
  · exact normalizeUnit_whitelists.2.2.2.1 "liter" "L" (by decide) (by decide)
  · decide
  · exact normalizeUnit_whitelists.2.2.2.2.2 "celsius" "°C" (by decide) (by decide)

/-- C4: the property-value walk returns absent the instant a segment is
missing or the current node is not object-like, unwraps a terminal `value`
member, returns the terminal node otherwise; and the feature lookup is
absent exactly when the path is unknown or the feature is disabled. -/
theorem property_access_spec (features : List Feature) (path : String)
    (f : Feature) (p : String) :
    (getProperty features path = none ↔
      featureMapGet features path = none
        ∨ ∃ g, featureMapGet features path = some g ∧ g.isEnabled = false)
    ∧ (walkParts (.jobj f.properties) (jsSplitDot p) = none →
        getPropertyValue (some f) p = .jnull)
    ∧ (∀ t v, walkParts (.jobj f.properties) (jsSplitDot p) = some t →
        t.isObjLike = true → t.get "value" = some v →
        getPropertyValue (some f) p = v)
    ∧ (∀ t, walkParts (.jobj f.properties) (jsSplitDot p) = some t →
        t.isObjLike = false ∨ t.get "value" = none →
        getPropertyValue (some f) p = t)
    ∧ (∀ (cur : Jx) (seg : String) (rest : List String),
        cur.isObjLike = false → walkParts cur (seg :: rest) = none)
    ∧ (∀ (cur : Jx) (seg : String) (rest : List String),
        cur.get seg = none → walkParts cur (seg :: rest) = none)
    ∧ (∀ (cur nxt : Jx) (seg : String) (rest : List String),
        cur.get seg = some nxt →
        walkParts cur (seg :: rest) = walkParts nxt rest) := by
  refine ⟨?_, ?_, ?_, ?_, ?_, ?_, ?_⟩
  · unfold getProperty
    rcases hm : featureMapGet features path with _ | g
    · simp
    · by_cases he : g.isEnabled <;> simp [he]
  · intro hw
    simp [getPropertyValue, hw]
  · intro t v hw hobj hv
    simp [getPropertyValue, hw, Jx.hasKey, hobj, hv, Option.isSome]
  · intro t hw hcase
    rcases hcase with hobj | hv
    · simp [getPropertyValue, hw, hobj]
    · by_cases hobj : t.isObjLike
      · simp [getPropertyValue, hw, hobj, Jx.hasKey, hv]
      · simp [getPropertyValue, hw, hobj]
  · intro cur seg rest hobj
    cases cur <;> simp_all [walkParts, Jx.isObjLike]
  · intro cur seg rest hget
    cases cur <;> simp_all [walkParts, Jx.isObjLike]
  · intro cur nxt seg rest hget
    cases cur <;> simp_all [walkParts, Jx.isObjLike, Jx.get]

/-- Witness for C4: a concrete store where the path is disabled, and a
concrete walk that unwraps a `value` member. -/
theorem property_access_spec_witness :
    getProperty [{ feature := "a", isEnabled := false }] "a" = none
    ∧ getPropertyValue
        (some { feature := "f", isEnabled := true,
                properties := [("value", .jobj [("value", .jnum 42)])] })
        "value" = .jnum 42 := by
  constructor
  · exact (property_access_spec [{ feature := "a", isEnabled := false }] "a"
      { feature := "f", isEnabled := true } "x").1.mpr
      (Or.inr ⟨{ feature := "a", isEnabled := false }, rfl, rfl⟩)
  · exact (property_access_spec []
      "a" { feature := "f", isEnabled := true,
            properties := [("value", .jobj [("value", .jnum 42)])] }
      "value").2.2.1 (.jobj [("value", .jnum 42)]) (.jnum 42) rfl rfl rfl

/-! ### Mode mapping lemmas (claim C10) -/

theorem charListLe_total : ∀ a b : List Char,
    charListLe a b = true ∨ charListLe b a = true := by
  intro a
  induction a with
  | nil => intro b; left; rfl
  | cons x xs ih =>
    intro b
    cases b with
    | nil => right; rfl
    | cons y ys =>
      by_cases h1 : x.toNat < y.toNat
      · left; simp [charListLe, h1]
      · by_cases h2 : y.toNat < x.toNat
        · right; simp [charListLe, h2]
        · rcases ih ys with h | h
          · left; simp [charListLe, h1, h2, h]
          · right; simp [charListLe, h1, h2, h]

theorem charListLe_trans : ∀ a b c : List Char, charListLe a b = true →
    charListLe b c = true → charListLe a c = true := by
  intro a
  induction a with
  | nil => intro b c _ _; rfl
  | cons x xs ih =>
    intro b c hab hbc
    cases b with
    | nil => simp [charListLe] at hab
    | cons y ys =>
      cases c with
      | nil => simp [charListLe] at hbc
      | cons z zs =>
        simp only [charListLe] at hab hbc ⊢
        by_cases hxy : x.toNat < y.toNat
        · by_cases hyz : y.toNat < z.toNat
          · simp [Nat.lt_trans hxy hyz]
          · by_cases hzy : z.toNat < y.toNat
            · simp [hyz, hzy] at hbc
            · have hxz : x.toNat < z.toNat := by omega
              simp [hxz]
        · by_cases hyx : y.toNat < x.toNat
          · simp [hxy, hyx] at hab
          · by_cases hyz : y.toNat < z.toNat
            · have hxz : x.toNat < z.toNat := by omega
              simp [hxz]
            · by_cases hzy : z.toNat < y.toNat
              · simp [hyz, hzy] at hbc
              · have h1 : ¬ x.toNat < z.toNat := by omega
                have h2 : ¬ z.toNat < x.toNat := by omega
                simp only [if_neg h1, if_neg h2]
                simp only [if_neg hxy, if_neg hyx] at hab
                simp only [if_neg hyz, if_neg hzy] at hbc
                exact ih ys zs hab hbc

theorem jsStrLe_total (a b : String) : jsStrLe a b = true ∨ jsStrLe b a = true :=
  charListLe_total a.toList b.toList

theorem jsStrLe_trans {a b c : String} (h1 : jsStrLe a b = true)
    (h2 : jsStrLe b c = true) : jsStrLe a c = true :=
  charListLe_trans a.toList b.toList c.toList h1 h2

theorem insertSorted_perm (x : String) (l : List String) :
    List.Perm (insertSorted x l) (x :: l) := by
  induction l with
  | nil => exact List.Perm.refl _
  | cons y ys ih =>
    by_cases h : jsStrLe x y
    · simp [insertSorted, h]
    · simp only [insertSorted, if_neg h]
      exact (List.Perm.cons y ih).trans (List.Perm.swap x y ys)

theorem mem_insertSorted {y x : String} {l : List String} :
    y ∈ insertSorted x l ↔ y ∈ x :: l :=
  (insertSorted_perm x l).mem_iff

theorem sortStrings_perm (l : List String) : List.Perm (sortStrings l) l := by
  induction l with
  | nil => exact List.Perm.refl _
  | cons x xs ih =>
    exact (insertSorted_perm x (sortStrings xs)).trans (List.Perm.cons x ih)

theorem insertSorted_sorted (x : String) (l : List String)
    (h : l.Pairwise (fun a b => jsStrLe a b = true)) :
    (insertSorted x l).Pairwise (fun a b => jsStrLe a b = true) := by
  induction l with
  | nil => simp [insertSorted]
  | cons y ys ih =>
    rcases List.pairwise_cons.mp h with ⟨hy, hys⟩
    by_cases hxy : jsStrLe x y
    · simp only [insertSorted, if_pos hxy]
      refine List.pairwise_cons.mpr ⟨?_, h⟩
      intro z hz
      rcases List.mem_cons.mp hz with rfl | hz'
      · exact hxy
      · exact jsStrLe_trans hxy (hy z hz')
    · simp only [insertSorted, if_neg hxy]
      refine List.pairwise_cons.mpr ⟨?_, ih hys⟩
      intro z hz
      rcases List.mem_cons.mp (mem_insertSorted.mp hz) with rfl | hz'
      · rcases jsStrLe_total y z with hyx | hxy'
        · exact hyx
        · exact absurd hxy' hxy
      · exact hy z hz'

theorem sortStrings_sorted (l : List String) :
    (sortStrings l).Pairwise (fun a b => jsStrLe a b = true) := by
  induction l with
  | nil => simp [sortStrings]
  | cons x xs ih => exact insertSorted_sorted x (sortStrings xs) ih

theorem mem_addUnique {y : String} {acc : List String} {x : String} :
    y ∈ addUnique acc x ↔ y ∈ acc ∨ y = x := by
  by_cases h : x ∈ acc
  · have hc : acc.contains x = true := by simpa using h
    simp only [addUnique]
    rw [if_pos hc]
    constructor
    · exact Or.inl
    · rintro (hy | rfl)
      · exact hy
      · exact h
  · have hc : ¬ acc.contains x = true := by simpa using h
    simp only [addUnique]
    rw [if_neg hc]
    simp

theorem addUnique_nodup {acc : List String} {x : String} (h : acc.Nodup) :
    (addUnique acc x).Nodup := by
  by_cases hm : x ∈ acc
  · have hc : acc.contains x = true := by simpa using hm
    simp only [addUnique]
    rw [if_pos hc]
    exact h
  · have hc : ¬ acc.contains x = true := by simpa using hm
    simp only [addUnique]
    rw [if_neg hc]
    simp [List.nodup_append, h, hm]

theorem addUnique_ne_nil (acc : List String) (x : String) :
    addUnique acc x ≠ [] := by
  by_cases hm : x ∈ acc
  · have hc : acc.contains x = true := by simpa using hm
    simp only [addUnique]
    rw [if_pos hc]
    intro hnil
    rw [hnil] at hm
    exact List.not_mem_nil x hm
  · have hc : ¬ acc.contains x = true := by simpa using hm
    simp only [addUnique]
    rw [if_neg hc]
    simp

theorem foldl_addUnique_nodup (g : String → String) :
    ∀ (modes acc : List String), acc.Nodup →
      (modes.foldl (fun a m => addUnique a (g m)) acc).Nodup := by
  intro modes
  induction modes with
  | nil => intro acc h; exact h
  | cons m ms ih => intro acc h; exact ih _ (addUnique_nodup h)

theorem foldl_addUnique_mem (g : String → String) :
    ∀ (modes acc : List String) (y : String),
      y ∈ modes.foldl (fun a m => addUnique a (g m)) acc →
      y ∈ acc ∨ ∃ m ∈ modes, y = g m := by
  intro modes
  induction modes with
  | nil => intro acc y h; exact Or.inl h
  | cons m ms ih =>
    intro acc y h
    rcases ih _ y h with h' | ⟨m', hm', rfl⟩
    · rcases mem_addUnique.mp h' with h'' | rfl
      · exact Or.inl h''
      · exact Or.inr ⟨m, List.mem_cons_self m ms, rfl⟩
    · exact Or.inr ⟨m', List.mem_cons_of_mem m hm', rfl⟩

theorem foldl_addUnique_ne_nil (g : String → String) :
    ∀ (modes acc : List String), acc ≠ [] →
      modes.foldl (fun a m => addUnique a (g m)) acc ≠ [] := by
  intro modes
  induction modes with
  | nil => intro acc h; exact h
  | cons m ms ih => intro acc _; exact ih _ (addUnique_ne_nil acc (g m))

theorem mapMode_cases (m : String) :
    mapViessmannModeToHomeAssistant m = "off"
      ∨ mapViessmannModeToHomeAssistant m = "auto"
      ∨ mapViessmannModeToHomeAssistant m = "heat" := by
  unfold mapViessmannModeToHomeAssistant
  by_cases h1 : m = "Nothing" || strIncludes (jsToLower m) "off"
  · simp [h1]
  · by_cases h2 : strIncludes m "Weather" && !strIncludes m "Room"
    · simp [h1, h2]
    · simp [h1, h2]

/-- C10: for every nonempty mode list the Home Assistant mode list contains
`"off"`, has no duplicates, is sorted ascending by the JS string
comparator, and draws all elements from off/heat/auto; the empty input
yields the empty list. -/
theorem mapModes_spec (modes : List String) :
    (modes = [] → mapViessmannModesToHomeAssistant modes = [])
    ∧ (modes ≠ [] → "off" ∈ mapViessmannModesToHomeAssistant modes)
    ∧ (mapViessmannModesToHomeAssistant modes).Nodup
    ∧ (mapViessmannModesToHomeAssistant modes).Pairwise
        (fun a b => jsStrLe a b = true)
    ∧ ∀ x ∈ mapViessmannModesToHomeAssistant modes,
        x = "off" ∨ x = "heat" ∨ x = "auto" := by
  unfold mapViessmannModesToHomeAssistant
  set g := mapViessmannModeToHomeAssistant with hg
  set validModes := modes.foldl (fun acc m => addUnique acc (g m)) [] with hv
  set cond := (decide (validModes.length > 0) && !validModes.contains "off") with hcond
  set withOff := if cond = true then validModes ++ ["off"] else validModes with hw
  have hvnodup : validModes.Nodup := foldl_addUnique_nodup g modes [] List.nodup_nil
  have hvmem : ∀ y ∈ validModes, ∃ m ∈ modes, y = g m := by
    intro y hy
    rcases foldl_addUnique_mem g modes [] y hy with h | h
    · cases h
    · exact h
  have hwnodup : withOff.Nodup := by
    rw [hw]
    by_cases hc : cond = true
    · have hoff : "off" ∉ validModes := by
        rw [hcond] at hc
        rcases Bool.and_eq_true_iff.mp hc with ⟨_, h2⟩
        simpa using h2
      rw [if_pos hc]
      simp [List.nodup_append, hvnodup, hoff]
    · rw [if_neg hc]
      exact hvnodup
  have hwmem : ∀ y ∈ withOff, y = "off" ∨ ∃ m ∈ modes, y = g m := by
    intro y hy
    rw [hw] at hy
    by_cases hc : cond = true
    · rw [if_pos hc] at hy
      rcases List.mem_append.mp hy with h | h
      · exact Or.inr (hvmem y h)
      · simp at h
        exact Or.inl h
    · rw [if_neg hc] at hy
      exact Or.inr (hvmem y hy)
  refine ⟨?_, ?_, ?_, ?_, ?_⟩
  · intro hnil
    subst hnil
    rfl
  · intro hne
    have hvne : validModes ≠ [] := by
      rw [hv]
      cases modes with
      | nil => exact absurd rfl hne
      | cons m ms =>
        exact foldl_addUnique_ne_nil g ms (addUnique [] (g m))
          (addUnique_ne_nil [] (g m))
    have hmem : "off" ∈ withOff := by
      rw [hw]
      by_cases hc : cond = true
      · rw [if_pos hc]
        simp
      · rw [if_neg hc]
        have hlen : validModes.length > 0 := List.length_pos.mpr hvne
        rw [hcond] at hc
        have hcontains : validModes.contains "off" = true := by
          by_contra hcon
          apply hc
          have h1 : decide (validModes.length > 0) = true := decide_eq_true hlen
          have h2 : validModes.contains "off" = false := Bool.eq_false_iff.mpr hcon
          rw [h1, h2]
          rfl
        simpa using hcontains
    exact (sortStrings_perm withOff).mem_iff.mpr hmem
  · exact (sortStrings_perm withOff).nodup_iff.mpr hwnodup
  · exact sortStrings_sorted withOff
  · intro x hx
    rcases hwmem x ((sortStrings_perm withOff).mem_iff.mp hx) with rfl | ⟨m, _, rfl⟩
    · exact Or.inl rfl
    · rcases mapMode_cases m with h | h | h <;> rw [hg, h]
      · exact Or.inl rfl
      · exact Or.inr (Or.inr rfl)
      · exact Or.inr (Or.inl rfl)

/-- Witness for C10 at the concrete mode list `["standby", "heating"]`. -/
theorem mapModes_spec_witness :
    "off" ∈ mapViessmannModesToHomeAssistant ["standby", "heating"]
    ∧ (mapViessmannModesToHomeAssistant ["standby", "heating"]).Nodup := by
  refine ⟨(mapModes_spec ["standby", "heating"]).2.1 (by decide),
    (mapModes_spec ["standby", "heating"]).2.2.1⟩

/-! ### Component record lemmas -/

theorem mem_setC : ∀ (m : Components) (k : String) (v : Component)
    (kv : String × Component), kv ∈ setC m k v → kv ∈ m ∨ kv = (k, v) := by
  intro m k v kv
  induction m with
  | nil =>
    intro h
    simp only [setC] at h
    rcases List.mem_singleton.mp h with rfl
    exact Or.inr rfl
  | cons hd rest ih =>
    obtain ⟨k', v'⟩ := hd
    intro h
    by_cases hk : k' = k
    · subst hk
      simp only [setC, if_pos rfl] at h
      rcases List.mem_cons.mp h with rfl | h'
      · exact Or.inr rfl
      · exact Or.inl (List.mem_cons_of_mem _ h')
    · simp only [setC, if_neg hk] at h
      rcases List.mem_cons.mp h with rfl | h'
      · exact Or.inl (List.mem_cons_self _ _)
      · rcases ih h' with h'' | h''
        · exact Or.inl (List.mem_cons_of_mem _ h'')
        · exact Or.inr h''

theorem mem_setAll : ∀ (l : List (String × Component)) (m : Components)
    (kv : String × Component), kv ∈ setAll m l → kv ∈ m ∨ kv ∈ l := by
  intro l
  induction l with
  | nil => intro m kv h; exact Or.inl h
  | cons x xs ih =>
    intro m kv h
    rcases ih (setC m x.1 x.2) kv h with h' | h'
    · rcases mem_setC m x.1 x.2 kv h' with h'' | h''
      · exact Or.inl h''
      · refine Or.inr ?_
        rw [h'']
        exact List.mem_cons_self _ _
    · exact Or.inr (List.mem_cons_of_mem x h')

theorem length_setC_le : ∀ (m : Components) (k : String) (v : Component),
    (setC m k v).length ≤ m.length + 1 := by
  intro m k v
  induction m with
  | nil => simp [setC]
  | cons hd rest ih =>
    obtain ⟨k', v'⟩ := hd
    by_cases hk : k' = k
    · simp [setC, hk]
    · simp only [setC, if_neg hk, List.length_cons]
      omega

theorem length_setAll_le : ∀ (l : List (String × Component)) (m : Components),
    (setAll m l).length ≤ m.length + l.length := by
  intro l
  induction l with
  | nil => intro m; simp [setAll]
  | cons x xs ih =>
    intro m
    have h1 := ih (setC m x.1 x.2)
    have h2 := length_setC_le m x.1 x.2
    simp only [setAll] at h1 ⊢
    simp only [List.foldl_cons, List.length_cons]
    omega

theorem getC_setC_ne : ∀ (m : Components) (k : String) (v : Component)
    (k' : String), k ≠ k' → getC (setC m k v) k' = getC m k' := by
  intro m k v k' hne
  induction m with
  | nil =>
    simp only [setC, getC]
    rw [if_neg hne]
  | cons hd rest ih =>
    obtain ⟨k0, v0⟩ := hd
    by_cases hk : k0 = k
    · subst hk
      simp only [setC, if_pos rfl, getC]
      rw [if_neg hne, if_neg hne]
    · simp only [setC, if_neg hk, getC]
      by_cases hk' : k0 = k'
      · rw [if_pos hk', if_pos hk']
      · rw [if_neg hk', if_neg hk']
        exact ih

/-! ### Circuit sensor expansion lemmas (claim C8) -/

/-- The room-temperature component key template instantiated at `i`. -/
theorem roomTempKeyT (i : String) :
    strReplace roomTempCircuitSensorMeta.componentKeyTemplate "{id}" i
      = "circuit_" ++ i ++ "_room_temp" := by
  obtain ⟨d⟩ := i
  rfl

/-- The room-temperature feature path template instantiated at `i`. -/
theorem roomTempPathT (i : String) :
    strReplace roomTempCircuitSensorMeta.featurePathTemplate "N" i
      = "heating.circuits." ++ i ++ ".sensors.temperature.room" := by
  obtain ⟨d⟩ := i
  rfl

theorem roomTempKey_inj {a b : String}
    (h : "circuit_" ++ a ++ "_room_temp" = "circuit_" ++ b ++ "_room_temp") :
    a = b := by
  obtain ⟨da⟩ := a
  obtain ⟨db⟩ := b
  injection h with h'
  rw [List.append_assoc, List.append_assoc] at h'
  exact congrArg String.mk (List.append_cancel_right (List.append_cancel_left h'))

theorem circuitSensorBuilder_shape (cfg : Cfg) (fname : NameFn)
    (features : List Feature) (metadata : CircuitSensorMeta)
    (itemId featurePath : String) (feature : Feature) (componentKey : String)
    (l : List (String × Component))
    (h : circuitSensorBuilder cfg fname features metadata itemId featurePath
      feature componentKey = some l) :
    (∃ c, l = [(componentKey, c)]) ∧ circuitValueOk feature = true := by
  unfold circuitSensorBuilder at h
  by_cases hv : circuitValueOk feature
  · rw [hv] at h
    simp only [Bool.not_true, Bool.false_eq_true, if_false, Option.some.injEq] at h
    exact ⟨⟨_, h.symm⟩, hv⟩
  · rw [Bool.eq_false_iff.mpr hv] at h
    simp at h

theorem circuitMetaStep_mem (cfg : Cfg) (fname : NameFn)
    (features : List Feature) (metadata : CircuitSensorMeta)
    (comps : Components) (itemId : String) (kv : String × Component)
    (h : kv ∈ circuitMetaStep cfg fname features metadata comps itemId) :
    kv ∈ comps
      ∨ (kv.1 = strReplace metadata.componentKeyTemplate "{id}" itemId
          ∧ ∃ ft ∈ features,
              ft.feature = strReplace metadata.featurePathTemplate "N" itemId
                ∧ ft.isEnabled = true ∧ circuitValueOk ft = true) := by
  simp only [circuitMetaStep] at h
  split at h
  · exact Or.inl h
  · rename_i ft hf
    split at h
    · exact Or.inl h
    · rename_i l hb
      rcases mem_setAll l comps kv h with h' | h'
      · exact Or.inl h'
      · obtain ⟨⟨c, rfl⟩, hvo⟩ := circuitSensorBuilder_shape cfg fname features
          metadata itemId _ ft _ l hb
        rcases List.mem_singleton.mp h' with rfl
        right
        have hp := List.find?_some hf
        have hm := List.mem_of_find?_eq_some hf
        rcases Bool.and_eq_true_iff.mp hp with ⟨hpath, hen⟩
        exact ⟨rfl, ft, hm, by simpa using hpath, hen, hvo⟩

theorem circuitMetaStep_length (cfg : Cfg) (fname : NameFn)
    (features : List Feature) (metadata : CircuitSensorMeta)
    (comps : Components) (itemId : String) :
    (circuitMetaStep cfg fname features metadata comps itemId).length
      ≤ comps.length + 1 := by
  simp only [circuitMetaStep]
  split
  · omega
  · rename_i ft hf
    split
    · omega
    · rename_i l hb
      obtain ⟨⟨c, rfl⟩, _⟩ := circuitSensorBuilder_shape cfg fname features
        metadata itemId _ ft _ l hb
      simpa using length_setAll_le [(_, c)] comps

/-- The claim's "backing feature is absent or disabled or its `value`
property is missing or null", phrased over the lookup the loop performs. -/
def circuitBackingBad (features : List Feature) (metadata : CircuitSensorMeta)
    (i : String) : Bool :=
  match features.find? (fun ft =>
      ft.feature = strReplace metadata.featurePathTemplate "N" i
        && ft.isEnabled) with
  | none => true
  | some ft => !circuitValueOk ft

theorem circuitMetaStep_getC_none (cfg : Cfg) (fname : NameFn)
    (features : List Feature) (metadata : CircuitSensorMeta)
    (comps : Components) (itemId key : String)
    (h : getC comps key = none)
    (hcase : strReplace metadata.componentKeyTemplate "{id}" itemId ≠ key
      ∨ circuitBackingBad features metadata itemId = true) :
    getC (circuitMetaStep cfg fname features metadata comps itemId) key = none := by
  simp only [circuitMetaStep]
  split
  · exact h
  · rename_i ft hf
    split
    · exact h
    · rename_i l hb
      obtain ⟨⟨c, rfl⟩, hvo⟩ := circuitSensorBuilder_shape cfg fname features
        metadata itemId _ ft _ l hb
      have hkey : strReplace metadata.componentKeyTemplate "{id}" itemId ≠ key := by
        rcases hcase with hk | hbad
        · exact hk
        · exfalso
          unfold circuitBackingBad at hbad
          rw [hf] at hbad
          simp [hvo] at hbad
      show getC (setAll comps [(_, c)]) key = none
      have : setAll comps [(strReplace metadata.componentKeyTemplate "{id}" itemId, c)]
          = setC comps (strReplace metadata.componentKeyTemplate "{id}" itemId) c := rfl
      rw [this, getC_setC_ne _ _ _ _ hkey]
      exact h

theorem circuitMeta_fold_mem (cfg : Cfg) (fname : NameFn)
    (features : List Feature) (metadata : CircuitSensorMeta) :
    ∀ (items : List String) (comps : Components) (kv : String × Component),
      kv ∈ items.foldl (circuitMetaStep cfg fname features metadata) comps →
      kv ∈ comps
        ∨ ∃ i ∈ items,
            kv.1 = strReplace metadata.componentKeyTemplate "{id}" i
              ∧ ∃ ft ∈ features,
                  ft.feature = strReplace metadata.featurePathTemplate "N" i
                    ∧ ft.isEnabled = true ∧ circuitValueOk ft = true := by
  intro items
  induction items with
  | nil => intro comps kv h; exact Or.inl h
  | cons i is ih =>
    intro comps kv h
    rcases ih _ kv h with h' | ⟨j, hj, hrest⟩
    · rcases circuitMetaStep_mem cfg fname features metadata comps i kv h' with
        h'' | h''
      · exact Or.inl h''
      · exact Or.inr ⟨i, List.mem_cons_self i is, h''⟩
    · exact Or.inr ⟨j, List.mem_cons_of_mem i hj, hrest⟩

theorem circuitMeta_fold_length (cfg : Cfg) (fname : NameFn)
    (features : List Feature) (metadata : CircuitSensorMeta) :
    ∀ (items : List String) (comps : Components),
      (items.foldl (circuitMetaStep cfg fname features metadata) comps).length
        ≤ comps.length + items.length := by
  intro items
  induction items with
  | nil => intro comps; simp
  | cons i is ih =>
    intro comps
    have h1 := ih (circuitMetaStep cfg fname features metadata comps i)
    have h2 := circuitMetaStep_length cfg fname features metadata comps i
    simp only [List.foldl_cons, List.length_cons]
    omega

theorem circuitMeta_fold_getC_none (cfg : Cfg) (fname : NameFn)
    (features : List Feature) (metadata : CircuitSensorMeta) :
    ∀ (items : List String) (comps : Components) (key : String),
      getC comps key = none →
      (∀ i ∈ items, strReplace metadata.componentKeyTemplate "{id}" i = key →
        circuitBackingBad features metadata i = true) →
      getC (items.foldl (circuitMetaStep cfg fname features metadata) comps) key
        = none := by
  intro items
  induction items with
  | nil => intro comps key h _; exact h
  | cons i is ih =>
    intro comps key h hall
    simp only [List.foldl_cons]
    refine ih _ key ?_ ?_
    · refine circuitMetaStep_getC_none cfg fname features metadata comps i key h ?_
      by_cases hk : strReplace metadata.componentKeyTemplate "{id}" i = key
      · exact Or.inr (hall i (List.mem_cons_self i is) hk)
      · exact Or.inl hk
    · intro j hj hkj
      exact hall j (List.mem_cons_of_mem i hj) hkj

/-- C8: for `N` available circuit ids the room-temperature expansion emits
at most `N` sensors; every emitted sensor's key comes from an id whose
backing feature is present, enabled and carries a non-null `value`; and an
id whose backing is absent, disabled or value-less contributes no
component. -/
theorem circuit_room_sensor_bounds (cfg : Cfg) (fname : NameFn)
    (features : List Feature) (items : List String) :
    (componentsFromCircuitMetadata cfg fname features roomTempCircuitSensorMeta
        items).length ≤ items.length
    ∧ (∀ kv ∈ componentsFromCircuitMetadata cfg fname features
          roomTempCircuitSensorMeta items,
        ∃ i ∈ items,
          kv.1 = "circuit_" ++ i ++ "_room_temp"
            ∧ ∃ ft ∈ features,
                ft.feature = "heating.circuits." ++ i ++ ".sensors.temperature.room"
                  ∧ ft.isEnabled = true ∧ circuitValueOk ft = true)
    ∧ ∀ i ∈ items,
        circuitBackingBad features roomTempCircuitSensorMeta i = true →
        getC (componentsFromCircuitMetadata cfg fname features
          roomTempCircuitSensorMeta items) ("circuit_" ++ i ++ "_room_temp")
          = none := by
  refine ⟨?_, ?_, ?_⟩
  · simpa using circuitMeta_fold_length cfg fname features
      roomTempCircuitSensorMeta items []
  · intro kv h
    rcases circuitMeta_fold_mem cfg fname features roomTempCircuitSensorMeta
      items [] kv h with h' | ⟨i, hi, hkey, ft, hft, hpath, hen, hok⟩
    · cases h'
    · refine ⟨i, hi, ?_, ft, hft, ?_, hen, hok⟩
      · rwa [roomTempKeyT] at hkey
      · rwa [roomTempPathT] at hpath
  · intro i hi hbad
    refine circuitMeta_fold_getC_none cfg fname features roomTempCircuitSensorMeta
      items [] _ rfl ?_
    intro j _ hkj
    rw [roomTempKeyT] at hkj
    have : j = i := roomTempKey_inj hkj
    rwa [this]

/-- Witness for C8 at a concrete device: one enabled circuit with a room
temperature, one disabled circuit, one missing circuit. -/
theorem circuit_room_sensor_bounds_witness :
    (componentsFromCircuitMetadata ⟨"vie", 1, "GW", "0"⟩ (fun _ => "Name")
        [{ feature := "heating.circuits.0.sensors.temperature.room",
           isEnabled := true,
           properties := [("value", .jobj [("type", .jstr "number"),
             ("value", .jnum 21), ("unit", .jstr "celsius")])] },
         { feature := "heating.circuits.1.sensors.temperature.room",
           isEnabled := false,
           properties := [("value", .jobj [("type", .jstr "number"),
             ("value", .jnum 22)])] }]
        roomTempCircuitSensorMeta ["0", "1", "2"]).length ≤ 3
    ∧ getC (componentsFromCircuitMetadata ⟨"vie", 1, "GW", "0"⟩ (fun _ => "Name")
        [{ feature := "heating.circuits.0.sensors.temperature.room",
           isEnabled := true,
           properties := [("value", .jobj [("type", .jstr "number"),
             ("value", .jnum 21), ("unit", .jstr "celsius")])] },
         { feature := "heating.circuits.1.sensors.temperature.room",
           isEnabled := false,
           properties := [("value", .jobj [("type", .jstr "number"),
             ("value", .jnum 22)])] }]
        roomTempCircuitSensorMeta ["0", "1", "2"]) "circuit_1_room_temp" = none := by
  constructor
  · exact (circuit_room_sensor_bounds ⟨"vie", 1, "GW", "0"⟩ (fun _ => "Name") _
      ["0", "1", "2"]).1
  · exact (circuit_room_sensor_bounds ⟨"vie", 1, "GW", "0"⟩ (fun _ => "Name") _
      ["0", "1", "2"]).2.2 "1" (by decide) (by decide)

/-! ### Reset button claims (C7) -/

/-- C7 (amended): a zero-parameter executable `reset` command on an
enabled, non-container feature yields a button with `payload_press = "{}"`;
when the feature path does not contain `".schedule"` the button carries
`enabled_by_default = false` and `entity_category = "config"`; when the
path contains `".schedule"` and the feature is not itself a
service-technician feature, the button carries neither field. -/
theorem reset_button_properties (cfg : Cfg) (fname : NameFn) (f : Feature)
    (cmd : Command)
    (_hen : f.isEnabled = true)
    (hcmds : f.commands = [("reset", cmd)])
    (hexec : cmd.isExecutable = true)
    (hparams : cmd.params = [])
    (hnc : isCircuitContainerFeature f.feature = false)
    (hnl : isListFeature f.feature = false) :
    ∃ c, getC (generateCommandComponentsFromFeatures cfg fname [f]
          []).commandComponents
        (jsToLower (generateComponentKey f.feature ++ "_reset")) = some c
      ∧ c.platform = "button" ∧ c.payload_press = some (lb ++ rb)
      ∧ (strIncludes f.feature ".schedule" = false →
          c.enabled_by_default = some false ∧ c.entity_category = some "config")
      ∧ (strIncludes f.feature ".schedule" = true →
          isServiceTechnicianFeature f.feature = false →
          c.enabled_by_default = none ∧ c.entity_category = none) := by
  simp only [generateCommandComponentsFromFeatures, List.foldl_cons, List.foldl_nil,
    processFeature, hnc, hnl, Bool.or_self, Bool.false_eq_true, if_false,
    getExecutableCommands, hcmds, List.filter_cons, hexec, if_true,
    List.filter_nil, componentsForFeature, List.any_nil, List.map_nil,
    reduceCtorEq, processCommand, hparams, keyTaken, getC,
    Option.isSome_none, Bool.and_false, addCommandComponent, setC]
  have hkey : generateComponentKey f.feature ++ "_" ++ "reset"
      = generateComponentKey f.feature ++ "_reset" := by
    rw [String.append_assoc]
    rfl
  rw [hkey, if_pos rfl]
  refine ⟨_, rfl, ?_, ?_, ?_, ?_⟩
  · by_cases hsvc : isServiceTechnicianCommand "reset" f.feature <;>
      simp [addServiceCommandProperties, hsvc, commandPlatforms]
  · by_cases hsvc : isServiceTechnicianCommand "reset" f.feature <;>
      simp [addServiceCommandProperties, hsvc, commandPlatforms]
  · intro hns
    have hsvc : isServiceTechnicianCommand "reset" f.feature = true := by
      unfold isServiceTechnicianCommand
      by_cases hsf : isServiceTechnicianFeature f.feature
      · simp [hsf]
      · simp [hsf, hns, serviceCommandNames]
    simp [addServiceCommandProperties, hsvc, commandPlatforms]
  · intro hs hsf
    have hsvc : isServiceTechnicianCommand "reset" f.feature = false := by
      unfold isServiceTechnicianCommand
      simp [hsf, hs]
    simp [addServiceCommandProperties, hsvc]

/-- Witness for C7 at a concrete one-time-charge feature. -/
theorem reset_button_properties_witness :
    ∃ c, getC (generateCommandComponentsFromFeatures ⟨"vie", 1, "GW", "0"⟩
          (fun _ => "Name")
          [{ feature := "heating.dhw.oneTimeCharge", isEnabled := true,
             properties := [("active", .jobj [("type", .jstr "boolean"),
               ("value", .jbool false)])],
             commands := [("reset", ⟨"reset", true, []⟩)] }] []).commandComponents
        (jsToLower (generateComponentKey "heating.dhw.oneTimeCharge" ++ "_reset"))
        = some c
      ∧ c.platform = "button" ∧ c.payload_press = some (lb ++ rb)
      ∧ (strIncludes "heating.dhw.oneTimeCharge" ".schedule" = false →
          c.enabled_by_default = some false ∧ c.entity_category = some "config")
      ∧ (strIncludes "heating.dhw.oneTimeCharge" ".schedule" = true →
          isServiceTechnicianFeature "heating.dhw.oneTimeCharge" = false →
          c.enabled_by_default = none ∧ c.entity_category = none) :=
  reset_button_properties ⟨"vie", 1, "GW", "0"⟩ (fun _ => "Name")
    { feature := "heating.dhw.oneTimeCharge", isEnabled := true,
      properties := [("active", .jobj [("type", .jstr "boolean"),
        ("value", .jbool false)])],
      commands := [("reset", ⟨"reset", true, []⟩)] }
    ⟨"reset", true, []⟩ rfl rfl rfl rfl (by decide) (by decide)

/-- C7 counterexample: on `heating.dhw.hysteresis.schedule` — a path that
contains both `".schedule"` and the service marker `".hysteresis"` — the
emitted reset button still gets `enabled_by_default = false` and
`entity_category = "config"`, contradicting the claim that `.schedule`
paths leave both unset. -/
theorem reset_schedule_service_counterexample :
    strIncludes "heating.dhw.hysteresis.schedule" ".schedule" = true
    ∧ ((generateCommandComponentsFromFeatures ⟨"vie", 1, "GW", "0"⟩
          (fun _ => "Name")
          [{ feature := "heating.dhw.hysteresis.schedule", isEnabled := true,
             properties := [("value", .jobj [("type", .jstr "number"),
               ("value", .jnum 5)])],
             commands := [("reset", ⟨"reset", true, []⟩)] }]
          []).commandComponents.map
        (fun kv => (kv.2.platform, kv.2.enabled_by_default, kv.2.entity_category)))
      = [("button", some false, some "config")] := by
  exact ⟨by decide, by decide⟩

/-! ### Generic record and topic lemmas for the pipeline invariants -/

theorem getC_mem : ∀ (m : Components) (k : String) (v : Component),
    getC m k = some v → (k, v) ∈ m := by
  intro m k v
  induction m with
  | nil => intro h; simp [getC] at h
  | cons hd rest ih =>
    obtain ⟨k0, v0⟩ := hd
    intro h
    by_cases hk : k0 = k
    · subst hk
      simp [getC] at h
      subst h
      exact List.mem_cons_self _ _
    · simp only [getC, if_neg hk] at h
      exact List.mem_cons_of_mem _ (ih h)

theorem getC_none_iff : ∀ (m : Components) (k : String),
    getC m k = none ↔ k ∉ m.map Prod.fst := by
  intro m k
  induction m with
  | nil => simp [getC]
  | cons hd rest ih =>
    obtain ⟨k0, v0⟩ := hd
    by_cases hk : k0 = k
    · subst hk
      simp [getC]
    · simp only [getC, if_neg hk, List.map_cons, List.mem_cons]
      rw [ih]
      constructor
      · rintro h (rfl | hmem)
        · exact hk rfl
        · exact h hmem
      · intro h hmem
        exact h (Or.inr hmem)

theorem keys_setC : ∀ (m : Components) (k : String) (v : Component),
    (setC m k v).map Prod.fst =
      if (getC m k).isSome then m.map Prod.fst else m.map Prod.fst ++ [k] := by
  intro m k v
  induction m with
  | nil => simp [setC, getC]
  | cons hd rest ih =>
    obtain ⟨k0, v0⟩ := hd
    by_cases hk : k0 = k
    · subst hk
      simp [setC, getC]
    · simp only [setC, if_neg hk, getC, List.map_cons, ih]
      by_cases hs : (getC rest k).isSome <;> simp [hs]

theorem keys_setC_nodup (m : Components) (k : String) (v : Component)
    (h : (m.map Prod.fst).Nodup) : ((setC m k v).map Prod.fst).Nodup := by
  rw [keys_setC]
  by_cases hs : (getC m k).isSome
  · rwa [if_pos hs]
  · rw [if_neg hs]
    have hk : k ∉ m.map Prod.fst := by
      rw [← getC_none_iff]
      exact Option.not_isSome_iff_eq_none.mp hs
    simp [List.nodup_append, h, hk]

theorem keys_setAll_nodup : ∀ (l : List (String × Component)) (m : Components),
    (m.map Prod.fst).Nodup → ((setAll m l).map Prod.fst).Nodup := by
  intro l
  induction l with
  | nil => intro m h; exact h
  | cons x xs ih =>
    intro m h
    exact ih (setC m x.1 x.2) (keys_setC_nodup m x.1 x.2 h)

theorem mem_foldl_setAll {α : Type} (gen : α → List (String × Component)) :
    ∀ (fs : List α) (init : Components) (kv : String × Component),
      kv ∈ fs.foldl (fun comps a => setAll comps (gen a)) init →
      kv ∈ init ∨ ∃ a ∈ fs, kv ∈ gen a := by
  intro fs
  induction fs with
  | nil => intro init kv h; exact Or.inl h
  | cons a as ih =>
    intro init kv h
    rcases ih _ kv h with h' | ⟨a', ha', hm⟩
    · rcases mem_setAll _ init kv h' with h'' | h''
      · exact Or.inl h''
      · exact Or.inr ⟨a, List.mem_cons_self a as, h''⟩
    · exact Or.inr ⟨a', List.mem_cons_of_mem a ha', hm⟩

theorem strAppend_cancel_left {a b c : String} (h : a ++ b = a ++ c) : b = c := by
  obtain ⟨la⟩ := a
  obtain ⟨lb⟩ := b
  obtain ⟨lc⟩ := c
  injection h with h'
  exact congrArg String.mk (List.append_cancel_left h')

theorem uidOf_inj (cfg : Cfg) {k1 k2 : String}
    (h : uidOf cfg k1 = uidOf cfg k2) : k1 = k2 := by
  unfold uidOf at h
  exact strAppend_cancel_left h

theorem filterMap_uid_eq (cfg : Cfg) : ∀ (doc : Components),
    (∀ kv ∈ doc, kv.2.unique_id = some (uidOf cfg kv.1)) →
    doc.filterMap (fun kv => kv.2.unique_id) = (doc.map Prod.fst).map (uidOf cfg) := by
  intro doc
  induction doc with
  | nil => intro _; rfl
  | cons kv rest ih =>
    intro h
    have hkv := h kv (List.mem_cons_self kv rest)
    simp only [List.filterMap_cons, hkv, List.map_cons]
    rw [ih (fun x hx => h x (List.mem_cons_of_mem kv hx))]

theorem commandPlatform_not_sensorish {p : String} (h : p ∈ commandPlatforms) :
    ¬(p = "sensor" ∨ p = "binary_sensor") := by
  rintro (rfl | rfl) <;> simp [commandPlatforms] at h

/-- The fields `addServiceCommandProperties` leaves alone or constrains. -/
theorem addService_fields (c : Component) (b : Bool) :
    (addServiceCommandProperties c b).unique_id = c.unique_id
    ∧ (addServiceCommandProperties c b).state_topic = c.state_topic
    ∧ (addServiceCommandProperties c b).platform = c.platform
    ∧ ((addServiceCommandProperties c b).entity_category = c.entity_category
        ∨ ((addServiceCommandProperties c b).entity_category = some "config"
            ∧ c.platform ∈ commandPlatforms))
    ∧ ((addServiceCommandProperties c b).enabled_by_default = c.enabled_by_default
        ∨ (addServiceCommandProperties c b).enabled_by_default = some false) := by
  unfold addServiceCommandProperties
  cases b with
  | false => simp
  | true =>
    by_cases hp : c.platform ∈ commandPlatforms
    · simp [hp]
    · simp [hp]

theorem getCommandStateConfig_topic (cfg : Cfg) (f : Feature)
    (pn p : String) (sc : StateConfig)
    (h : getCommandStateConfig cfg f pn p = some sc) :
    sc.state_topic = featureTopic cfg p := by
  unfold getCommandStateConfig at h
  rcases Option.map_eq_some'.mp h with ⟨pr, hpr, hsc⟩
  rw [← hsc]
  rfl

/-! ### The per-entry invariant of the discovery pipeline -/

/-- What holds of every record entry throughout the pipeline: a present
`state_topic` is the feature topic of some input feature, the `unique_id`
is derived from the record key, and sensor-like entries are never
`config`-category. -/
def StInv (cfg : Cfg) (features : List Feature) (kv : String × Component) : Prop :=
  (∀ t, kv.2.state_topic = some t → ∃ f ∈ features, t = featureTopic cfg f.feature)
  ∧ kv.2.unique_id = some (uidOf cfg kv.1)
  ∧ ((kv.2.platform = "sensor" ∨ kv.2.platform = "binary_sensor") →
      kv.2.entity_category ≠ some "config")

/-- What the automatic pass guarantees for each component it builds for the
feature at `fp`. -/
def AutoInv (cfg : Cfg) (fp : String) (kv : String × Component) : Prop :=
  kv.2.state_topic = some (featureTopic cfg fp)
  ∧ kv.2.unique_id = some (uidOf cfg kv.1)
  ∧ kv.2.entity_category ≠ some "config"
  ∧ (isServiceTechnicianFeature fp = true →
      kv.2.entity_category = some "diagnostic"
      ∧ kv.2.enabled_by_default = some false)

theorem determineEntityCategory_cases (fp pl : String) (dc : Option String)
    (props : List (String × Jx)) :
    determineEntityCategory fp pl dc props = some "diagnostic"
    ∨ determineEntityCategory fp pl dc props = none := by
  unfold determineEntityCategory
  split_ifs <;> simp

theorem autoCountComponents_inv (cfg : Cfg) (fp fn ck : String)
    (props : List (String × Jx)) :
    ∀ kv ∈ autoCountComponents cfg fp fn ck props, AutoInv cfg fp kv := by
  intro kv hkv
  unfold autoCountComponents at hkv
  simp only [List.mem_map] at hkv
  obtain ⟨ckey, hmem, heq⟩ := hkv
  subst heq
  by_cases hs : isServiceTechnicianFeature fp = true <;>
    simp [AutoInv, hs]

theorem autoDevConfComponents_inv (cfg : Cfg) (ck bfn : String)
    (props : List (String × Jx)) :
    ∀ kv ∈ autoDevConfComponents cfg "device.configuration" ck bfn props,
      AutoInv cfg "device.configuration" kv := by
  intro kv hkv
  unfold autoDevConfComponents at hkv
  simp only [List.mem_filterMap] at hkv
  obtain ⟨x, hmem, heq⟩ := hkv
  by_cases hc : (x.2.isObjLike && x.2.hasKey "type" && x.2.hasKey "value") = true
  · simp only [hc, Bool.not_true, Bool.false_eq_true, if_false,
      Option.some.injEq] at heq
    subst heq
    refine ⟨rfl, rfl, by simp, fun h => absurd h (by decide)⟩
  · simp [hc] at heq

theorem autoTimeComponentFor_inv (cfg : Cfg) (fp fn ck pl : String)
    (props : List (String × Jx)) (dc u : Option String) (tk : String) :
    AutoInv cfg fp (autoTimeComponentFor cfg fp fn ck pl props dc u tk) := by
  unfold AutoInv autoTimeComponentFor
  by_cases hs : isServiceTechnicianFeature fp = true <;>
    [skip; skip] <;> simp only [hs] <;> split_ifs <;> simp [hs]

theorem autoTimeComponents_inv (cfg : Cfg) (fp fn ck pl : String)
    (props : List (String × Jx)) :
    ∀ kv ∈ autoTimeComponents cfg fp fn ck pl props, AutoInv cfg fp kv := by
  intro kv hkv
  unfold autoTimeComponents at hkv
  simp only [List.mem_map] at hkv
  obtain ⟨tk, hmem, heq⟩ := hkv
  subst heq
  exact autoTimeComponentFor_inv cfg fp fn ck pl props _ _ tk

theorem ite_state_topic (c : Prop) [Decidable c] (a b : Component) :
    (ite c a b).state_topic = ite c a.state_topic b.state_topic :=
  apply_ite Component.state_topic c a b

theorem ite_unique_id (c : Prop) [Decidable c] (a b : Component) :
    (ite c a b).unique_id = ite c a.unique_id b.unique_id :=
  apply_ite Component.unique_id c a b

theorem ite_entity_category (c : Prop) [Decidable c] (a b : Component) :
    (ite c a b).entity_category = ite c a.entity_category b.entity_category :=
  apply_ite Component.entity_category c a b

theorem ite_enabled_by_default (c : Prop) [Decidable c] (a b : Component) :
    (ite c a b).enabled_by_default = ite c a.enabled_by_default b.enabled_by_default :=
  apply_ite Component.enabled_by_default c a b

theorem ite_platform (c : Prop) [Decidable c] (a b : Component) :
    (ite c a b).platform = ite c a.platform b.platform :=
  apply_ite Component.platform c a b

theorem autoGenericBase_inv (cfg : Cfg) (detect : DetectFn)
    (fp fn ck pl pp : String) (idc : Option String)
    (props : List (String × Jx)) :
    AutoInv cfg fp (ck, autoGenericBase cfg detect fp fn ck pl pp idc props) := by
  unfold AutoInv autoGenericBase
  by_cases hs : isServiceTechnicianFeature fp = true
  · simp [hs, ite_state_topic, ite_unique_id, ite_entity_category,
      ite_enabled_by_default]
  · rcases determineEntityCategory_cases fp pl
        (jsOrStr (detect fp pp props).deviceClass idc) props with hec | hec <;>
      [skip; skip] <;>
      simp [hs, hec, ite_state_topic, ite_unique_id, ite_entity_category,
        ite_enabled_by_default]

theorem autoGenericComponent_inv (cfg : Cfg) (detect : DetectFn)
    (fp fn ck pl : String) (props : List (String × Jx)) :
    ∀ kv ∈ autoGenericComponent cfg detect fp fn ck pl props,
      AutoInv cfg fp kv := by
  intro kv hkv
  unfold autoGenericComponent at hkv
  split at hkv
  · simp at hkv
  · simp only [List.mem_singleton] at hkv
    subst hkv
    exact autoGenericBase_inv cfg detect fp fn ck pl _ _ props

theorem autoComponentsForFeature_inv (cfg : Cfg) (detect : DetectFn)
    (fname : NameFn) (features : List Feature) (f : Feature) :
    ∀ kv ∈ autoComponentsForFeature cfg detect fname features f,
      AutoInv cfg f.feature kv := by
  intro kv hkv
  simp only [autoComponentsForFeature] at hkv
  split at hkv
  · exact autoCountComponents_inv _ _ _ _ _ kv hkv
  · split at hkv
    · rename_i h1 h2
      rw [h2] at hkv ⊢
      exact autoDevConfComponents_inv _ _ _ _ kv hkv
    · split at hkv
      · exact autoTimeComponents_inv _ _ _ _ _ _ kv hkv
      · exact autoGenericComponent_inv _ _ _ _ _ _ _ kv hkv

theorem generateComponentsFromAllFeatures_inv (cfg : Cfg) (detect : DetectFn)
    (fname : NameFn) (dps : List String) (features : List Feature) :
    ∀ kv ∈ generateComponentsFromAllFeatures cfg detect fname dps features,
      ∃ f ∈ features, f.isEnabled = true ∧ AutoInv cfg f.feature kv := by
  intro kv hkv
  unfold generateComponentsFromAllFeatures at hkv
  rcases mem_foldl_setAll _ _ _ kv hkv with h | ⟨f, hf, hm⟩
  · cases h
  · have hf' := List.mem_filter.mp hf
    have hen : f.isEnabled = true := by
      have hfl := hf'.2
      simp only [autoFeatureFilter, Bool.and_eq_true] at hfl
      exact hfl.1.1.2
    exact ⟨f, hf'.1, hen, autoComponentsForFeature_inv cfg detect fname features f kv hm⟩

/-! ### The command pass preserves the invariant -/

/-- The invariant of the command-pass state. -/
def CmdInv (cfg : Cfg) (features : List Feature) (st : CmdState) : Prop :=
  (∀ kv ∈ st.components, StInv cfg features kv)
  ∧ (∀ kv ∈ st.commandComponents, StInv cfg features kv)
  ∧ (st.components.map Prod.fst).Nodup

/-- The fields `StInv` watches. -/
def SameCore (a b : Component) : Prop :=
  b.state_topic = a.state_topic ∧ b.unique_id = a.unique_id
  ∧ b.platform = a.platform ∧ b.entity_category = a.entity_category

theorem StInv_of_sameCore {cfg : Cfg} {features : List Feature} {k : String}
    {a b : Component} (h : StInv cfg features (k, a)) (hs : SameCore a b) :
    StInv cfg features (k, b) := by
  obtain ⟨hst, hu, hcat⟩ := h
  obtain ⟨h1, h2, h3, h4⟩ := hs
  refine ⟨fun t ht => hst t (h1 ▸ ht), h2 ▸ hu, fun hp => ?_⟩
  rw [h4]
  exact hcat (h3 ▸ hp)

theorem StInv_addService (cfg : Cfg) (features : List Feature) (k : String)
    (c : Component) (b : Bool) (h : StInv cfg features (k, c)) :
    StInv cfg features (k, addServiceCommandProperties c b) := by
  obtain ⟨hst, hu, hcat⟩ := h
  obtain ⟨h1, h2, h3, h4, h5⟩ := addService_fields c b
  refine ⟨fun t ht => hst t (h2 ▸ ht), h1 ▸ hu, fun hp => ?_⟩
  rcases h4 with h4 | ⟨hcfg, hmem⟩
  · rw [h4]
    exact hcat (h3 ▸ hp)
  · exact absurd (h3 ▸ hp) (commandPlatform_not_sensorish hmem)

theorem addCommandComponent_inv (cfg : Cfg) (features : List Feature)
    (st : CmdState) (key : String) (c : Component)
    (h : CmdInv cfg features st) (hc : StInv cfg features (key, c)) :
    CmdInv cfg features (addCommandComponent st key c) := by
  refine ⟨h.1, ?_, h.2.2⟩
  intro kv hkv
  rcases mem_setC _ _ _ kv hkv with hm | he
  · exact h.2.1 kv hm
  · subst he
    exact hc

theorem StInv_numberComponent (cfg : Cfg) (features : List Feature)
    (f : Feature) (hf : f ∈ features) (ck fn cn pn : String)
    (pd : CommandParam) (sc : StateConfig)
    (hsc : sc.state_topic = featureTopic cfg f.feature) :
    StInv cfg features (ck, numberComponent cfg ck fn cn pn f.feature pd sc) := by
  refine ⟨fun t ht => ?_, rfl, fun hp => ?_⟩
  · have ht' : some sc.state_topic = some t := ht
    injection ht' with h'
    exact ⟨f, hf, h' ▸ hsc⟩
  · rcases hp with hp | hp <;> simp [numberComponent] at hp

theorem StInv_selectComponent (cfg : Cfg) (features : List Feature)
    (f : Feature) (hf : f ∈ features) (ck fn cn pn : String)
    (pd : CommandParam) (sc : StateConfig)
    (hsc : sc.state_topic = featureTopic cfg f.feature) :
    StInv cfg features (ck, selectComponent cfg ck fn cn pn f.feature pd sc) := by
  refine ⟨fun t ht => ?_, rfl, fun hp => ?_⟩
  · have ht' : some sc.state_topic = some t := ht
    injection ht' with h'
    exact ⟨f, hf, h' ▸ hsc⟩
  · rcases hp with hp | hp <;> simp [selectComponent] at hp

theorem StInv_switchComponent (cfg : Cfg) (features : List Feature)
    (f : Feature) (hf : f ∈ features) (ck fn cn pn : String)
    (sc : StateConfig)
    (hsc : sc.state_topic = featureTopic cfg f.feature) :
    StInv cfg features (ck, switchComponent cfg ck fn cn pn f.feature sc) := by
  refine ⟨fun t ht => ?_, rfl, fun hp => ?_⟩
  · have ht' : some sc.state_topic = some t := ht
    injection ht' with h'
    exact ⟨f, hf, h' ▸ hsc⟩
  · rcases hp with hp | hp <;> simp [switchComponent] at hp

theorem StInv_textComponent (cfg : Cfg) (features : List Feature)
    (f : Feature) (hf : f ∈ features) (ck fn cn pn : String)
    (pd : CommandParam) (sc : StateConfig)
    (hsc : sc.state_topic = featureTopic cfg f.feature) :
    StInv cfg features (ck, textComponent cfg ck fn cn pn f.feature pd sc) := by
  refine ⟨fun t ht => ?_, rfl, fun hp => ?_⟩
  · have ht' : some sc.state_topic = some t := ht
    injection ht' with h'
    exact ⟨f, hf, h' ▸ hsc⟩
  · rcases hp with hp | hp <;> simp [textComponent] at hp

theorem foldl_preserves {σ α : Type} (P : σ → Prop) (g : σ → α → σ)
    (hg : ∀ st a, P st → P (g st a)) :
    ∀ (l : List α) (st : σ), P st → P (l.foldl g st)
  | [], _, h => h
  | a :: as, st, h => foldl_preserves P g hg as (g st a) (hg st a h)

theorem foldl_preserves_mem {σ α : Type} (P : σ → Prop) (g : σ → α → σ) :
    ∀ (l : List α), (∀ st a, a ∈ l → P st → P (g st a)) →
      ∀ st, P st → P (l.foldl g st)
  | [], _, _, h => h
  | a :: as, hg, st, h =>
    foldl_preserves_mem P g as
      (fun st' a' ha' h' => hg st' a' (List.mem_cons_of_mem a ha') h')
      (g st a) (hg st a (List.mem_cons_self a as) h)

theorem processSingleParam_inv (cfg : Cfg) (features : List Feature)
    (f : Feature) (hf : f ∈ features) (sensorKeys : List String)
    (fn bk cn : String) (b : Bool) (pn : String) (pd : CommandParam)
    (st : CmdState) (h : CmdInv cfg features st) :
    CmdInv cfg features
      (processSingleParam cfg f sensorKeys fn bk cn b pn pd st) := by
  simp only [processSingleParam]
  split
  · exact h
  · split
    · -- the sensor-enhancement branch produced a state
      rename_i st2 heq
      split at heq
      · split at heq
        · split at heq
          · -- no sensor key: the state is unchanged
            injection heq with h2
            rw [← h2]
            exact h
          · rename_i key0 hhead
            split at heq
            · injection heq with h2
              rw [← h2]
              exact h
            · rename_i ec heqc
              split at heq
              · injection heq with h2
                rw [← h2]
                exact h
              · injection heq with h2
                rw [← h2]
                have hold : StInv cfg features (key0, ec) :=
                  h.1 (key0, ec) (getC_mem _ _ _ heqc)
                refine ⟨?_, h.2.1, keys_setC_nodup _ _ _ h.2.2⟩
                intro kv hkv
                rcases mem_setC _ _ _ kv hkv with hm | he
                · exact h.1 kv hm
                · subst he
                  apply StInv_addService
                  apply StInv_of_sameCore hold
                  by_cases hn : pd.type = "number"
                  · rw [if_pos hn]
                    exact ⟨rfl, rfl, rfl, rfl⟩
                  · rw [if_neg hn]
                    exact ⟨rfl, rfl, rfl, rfl⟩
        · cases heq
      · cases heq
    · -- no enhancement: a fresh command component may be added
      split
      · exact h
      · rename_i sc heq2
        have hsc := getCommandStateConfig_topic cfg f pn f.feature sc heq2
        split
        · exact addCommandComponent_inv _ _ _ _ _ h
            (StInv_addService _ _ _ _ _
              (StInv_selectComponent cfg features f hf _ fn cn pn pd sc hsc))
        · split
          · exact addCommandComponent_inv _ _ _ _ _ h
              (StInv_addService _ _ _ _ _
                (StInv_switchComponent cfg features f hf _ fn cn pn sc hsc))
          · split
            · exact addCommandComponent_inv _ _ _ _ _ h
                (StInv_addService _ _ _ _ _
                  (StInv_numberComponent cfg features f hf _ fn cn pn pd sc hsc))
            · exact addCommandComponent_inv _ _ _ _ _ h
                (StInv_addService _ _ _ _ _
                  (StInv_textComponent cfg features f hf _ fn cn pn pd sc hsc))

theorem processMultiParam_inv (cfg : Cfg) (features : List Feature)
    (f : Feature) (hf : f ∈ features) (fn bk cn : String) (b : Bool)
    (st : CmdState) (pp : String × CommandParam)
    (h : CmdInv cfg features st) :
    CmdInv cfg features (processMultiParam cfg f fn bk cn b st pp) := by
  simp only [processMultiParam]
  split
  · exact h
  · rename_i sc heq
    have hsc := getCommandStateConfig_topic cfg f pp.1 f.feature sc heq
    split
    · exact h
    · split
      · exact addCommandComponent_inv _ _ _ _ _ h
          (StInv_addService _ _ _ _ _
            (StInv_selectComponent cfg features f hf _ fn cn pp.1 pp.2 sc hsc))
      · split
        · exact addCommandComponent_inv _ _ _ _ _ h
            (StInv_addService _ _ _ _ _
              (StInv_numberComponent cfg features f hf _ fn cn pp.1 pp.2 sc hsc))
        · split
          · exact addCommandComponent_inv _ _ _ _ _ h
              (StInv_addService _ _ _ _ _
                (StInv_switchComponent cfg features f hf _ fn cn pp.1 sc hsc))
          · exact h

theorem processCommandTail_inv (cfg : Cfg) (features : List Feature)
    (f : Feature) (hf : f ∈ features) (sensorKeys : List String)
    (fn bk cn : String) (b : Bool) (params : List (String × CommandParam))
    (st : CmdState) (h : CmdInv cfg features st) :
    CmdInv cfg features
      (processCommandTail cfg f sensorKeys fn bk cn b params st) := by
  simp only [processCommandTail]
  split
  · split
    · split
      · split
        · exact h
        · apply addCommandComponent_inv _ _ _ _ _ h
          apply StInv_addService
          refine ⟨fun t ht => ?_, rfl, fun hp hx => ?_⟩
          · have ht' : some (featureTopic cfg f.feature) = some t := ht
            injection ht' with h'
            exact ⟨f, hf, h'.symm⟩
          · have hx' : (none : Option String) = some "config" := hx
            cases hx'
      · exact h
    · exact processSingleParam_inv cfg features f hf sensorKeys fn bk cn b _ _ st h
  · exact foldl_preserves (CmdInv cfg features) _
      (fun st2 pp h2 => processMultiParam_inv cfg features f hf fn bk cn b st2 pp h2)
      params st h

theorem processCommand_inv (cfg : Cfg) (features : List Feature)
    (f : Feature) (hf : f ∈ features) (hasClimate : Bool)
    (sensorKeys : List String) (fn bk : String) (st : CmdState)
    (ckv : String × Command) (h : CmdInv cfg features st) :
    CmdInv cfg features
      (processCommand cfg f hasClimate sensorKeys fn bk st ckv) := by
  simp only [processCommand]
  split
  · exact h
  · split
    · split
      · exact h
      · apply addCommandComponent_inv _ _ _ _ _ h
        apply StInv_addService
        refine ⟨fun t ht => ?_, rfl, fun hp => ?_⟩
        · have ht' : (none : Option String) = some t := ht
          cases ht'
        · rcases hp with hp | hp <;> simp at hp
    · split
      · split
        · apply foldl_preserves (CmdInv cfg features) _ ?_ _ st h
          intro st2 pp h2
          split
          · exact h2
          · split
            · exact h2
            · rename_i sc heq
              have hsc := getCommandStateConfig_topic cfg f pp.1 f.feature sc heq
              exact addCommandComponent_inv _ _ _ _ _ h2
                (StInv_addService _ _ _ _ _
                  (StInv_numberComponent cfg features f hf _ fn ckv.1 pp.1 pp.2 sc hsc))
        · exact processCommandTail_inv cfg features f hf sensorKeys fn bk ckv.1 _
            ckv.2.params st h
      · exact processCommandTail_inv cfg features f hf sensorKeys fn bk ckv.1 _
          ckv.2.params st h

theorem processFeature_inv (cfg : Cfg) (features : List Feature)
    (fname : NameFn) (comps0 : Components) (f : Feature) (hf : f ∈ features)
    (st : CmdState) (h : CmdInv cfg features st) :
    CmdInv cfg features (processFeature cfg fname features comps0 st f) := by
  simp only [processFeature]
  split
  · exact h
  · split
    · exact h
    · exact foldl_preserves (CmdInv cfg features) _
        (fun st2 c h2 => processCommand_inv cfg features f hf _ _ _ _ st2 c h2)
        _ st h

theorem generateCommandComponentsFromFeatures_inv (cfg : Cfg) (fname : NameFn)
    (features : List Feature) (comps : Components)
    (h1 : ∀ kv ∈ comps, StInv cfg features kv)
    (h2 : (comps.map Prod.fst).Nodup) :
    CmdInv cfg features
      (generateCommandComponentsFromFeatures cfg fname features comps) := by
  unfold generateCommandComponentsFromFeatures
  refine foldl_preserves_mem (CmdInv cfg features) _ features
    (fun st f hfm hst => processFeature_inv cfg features fname comps f hfm st hst)
    ⟨comps, []⟩ ⟨h1, ?_, h2⟩
  intro kv hkv
  cases hkv

/-! ### Climate enhancement and the final filter preserve the invariant -/

theorem SameCore_refl (a : Component) : SameCore a a := ⟨rfl, rfl, rfl, rfl⟩

theorem SameCore_trans {a b c : Component} (h1 : SameCore a b)
    (h2 : SameCore b c) : SameCore a c :=
  ⟨h2.1.trans h1.1, h2.2.1.trans h1.2.1, h2.2.2.1.trans h1.2.2.1,
    h2.2.2.2.trans h1.2.2.2⟩

theorem sameCore_enhanceMode (cfg : Cfg) (fp : String) (feature : Feature)
    (c : Component) : SameCore c (enhanceClimateMode cfg fp feature c) := by
  unfold enhanceClimateMode
  split
  · exact SameCore_refl c
  · split
    · dsimp only
      split
      · exact ⟨rfl, rfl, rfl, rfl⟩
      · exact SameCore_refl c
    · dsimp only
      split
      · split
        · exact ⟨rfl, rfl, rfl, rfl⟩
        · exact SameCore_refl c
      · exact SameCore_refl c

theorem sameCore_enhanceTemperature (cfg : Cfg) (fp : String)
    (feature : Feature) (c1 : Component) :
    SameCore c1 (enhanceClimateTemperature cfg fp feature c1) := by
  unfold enhanceClimateTemperature
  split
  · exact SameCore_refl c1
  · dsimp only
    split
    · exact ⟨rfl, rfl, rfl, rfl⟩
    · exact SameCore_refl c1

theorem sameCore_enhanceClimate (cfg : Cfg) (features : List Feature)
    (c : Component) : SameCore c (enhanceClimateComponent cfg features c) := by
  unfold enhanceClimateComponent
  split
  · exact SameCore_refl c
  · split
    · exact SameCore_refl c
    · split
      · exact SameCore_refl c
      · exact SameCore_trans (sameCore_enhanceMode cfg _ _ c)
          (sameCore_enhanceTemperature cfg _ _ _)

theorem enhance_keys (cfg : Cfg) (features : List Feature)
    (comps : Components) :
    (enhanceComponentsWithCommands cfg features comps).map Prod.fst
      = comps.map Prod.fst := by
  unfold enhanceComponentsWithCommands
  rw [List.map_map]
  rfl

/-- The whole pipeline tail keeps the per-entry invariant and emits
duplicate-free record keys. -/
theorem discovery_inv (cfg : Cfg) (detect : DetectFn) (fname : NameFn)
    (pre : Components) (dps : List String) (features : List Feature)
    (hpre : ∀ kv ∈ pre, StInv cfg features kv)
    (hpreN : (pre.map Prod.fst).Nodup) :
    (∀ kv ∈ discoveryComponents cfg detect fname pre dps features,
        StInv cfg features kv)
    ∧ ((discoveryComponents cfg detect fname pre dps features).map
        Prod.fst).Nodup := by
  have hc1mem : ∀ kv ∈ setAll pre
      (generateComponentsFromAllFeatures cfg detect fname dps features),
      StInv cfg features kv := by
    intro kv hkv
    rcases mem_setAll _ _ kv hkv with hp | ha
    · exact hpre kv hp
    · obtain ⟨f, hfm, hen, hAuto⟩ :=
        generateComponentsFromAllFeatures_inv cfg detect fname dps features kv ha
      refine ⟨fun t ht => ⟨f, hfm, ?_⟩, hAuto.2.1, fun hp => ?_⟩
      · rw [hAuto.1] at ht
        injection ht with h'
        exact h'.symm
      · exact hAuto.2.2.1
  have hc1N : ((setAll pre
      (generateComponentsFromAllFeatures cfg detect fname dps features)).map
        Prod.fst).Nodup :=
    keys_setAll_nodup _ pre hpreN
  obtain ⟨hm1, hm2, hN⟩ :=
    generateCommandComponentsFromFeatures_inv cfg fname features _ hc1mem hc1N
  have hc2mem : ∀ kv ∈ setAll
      (generateCommandComponentsFromFeatures cfg fname features
        (setAll pre (generateComponentsFromAllFeatures cfg detect fname dps
          features))).components
      (generateCommandComponentsFromFeatures cfg fname features
        (setAll pre (generateComponentsFromAllFeatures cfg detect fname dps
          features))).commandComponents,
      StInv cfg features kv := by
    intro kv hkv
    rcases mem_setAll _ _ kv hkv with ha | hb
    · exact hm1 kv ha
    · exact hm2 kv hb
  have hc2N := keys_setAll_nodup
    (generateCommandComponentsFromFeatures cfg fname features
      (setAll pre (generateComponentsFromAllFeatures cfg detect fname dps
        features))).commandComponents
    (generateCommandComponentsFromFeatures cfg fname features
      (setAll pre (generateComponentsFromAllFeatures cfg detect fname dps
        features))).components hN
  constructor
  · intro kv hkv
    unfold discoveryComponents filterContainers at hkv
    have hkv2 := List.mem_of_mem_filter hkv
    unfold enhanceComponentsWithCommands at hkv2
    rw [List.mem_map] at hkv2
    obtain ⟨kv0, hm0, heq⟩ := hkv2
    rw [← heq]
    exact StInv_of_sameCore (hc2mem kv0 hm0)
      (sameCore_enhanceClimate cfg features kv0.2)
  · unfold discoveryComponents
    have hsub : ((filterContainers (enhanceComponentsWithCommands cfg features
        (setAll
          (generateCommandComponentsFromFeatures cfg fname features
            (setAll pre (generateComponentsFromAllFeatures cfg detect fname dps
              features))).components
          (generateCommandComponentsFromFeatures cfg fname features
            (setAll pre (generateComponentsFromAllFeatures cfg detect fname dps
              features))).commandComponents))).map Prod.fst).Sublist
        ((enhanceComponentsWithCommands cfg features
          (setAll
            (generateCommandComponentsFromFeatures cfg fname features
              (setAll pre (generateComponentsFromAllFeatures cfg detect fname dps
                features))).components
            (generateCommandComponentsFromFeatures cfg fname features
              (setAll pre (generateComponentsFromAllFeatures cfg detect fname dps
                features))).commandComponents)).map Prod.fst) :=
      (List.filter_sublist _).map Prod.fst
    have hN2 := (enhance_keys cfg features _) ▸ hc2N
    exact hN2.sublist hsub

/-! ### Climate mode-command wiring (claim C5 helpers) -/

theorem enhanceTemperature_mode_fields (cfg : Cfg) (fp : String)
    (feature : Feature) (x : Component) :
    (enhanceClimateTemperature cfg fp feature x).mode_command_topic
        = x.mode_command_topic
    ∧ (enhanceClimateTemperature cfg fp feature x).mode_command_template
        = x.mode_command_template := by
  unfold enhanceClimateTemperature
  split
  · exact ⟨rfl, rfl⟩
  · dsimp only
    split
    · exact ⟨rfl, rfl⟩
    · exact ⟨rfl, rfl⟩

theorem enhanceMode_wires (cfg : Cfg) (fp : String) (feature : Feature)
    (c : Component) (cmd : Command) (pn : String) (pd : CommandParam)
    (hcm : c.mode_command_topic = none)
    (hlook : jxLookupCmd feature.commands "setMode" = some cmd)
    (hexec : cmd.isExecutable = true)
    (hparams : cmd.params = [(pn, pd)]) :
    (enhanceClimateMode cfg fp feature c).mode_command_topic
        = some (commandTopicOf cfg fp cmd.name)
    ∧ (enhanceClimateMode cfg fp feature c).mode_command_template
        = some (buildModeCommandTemplate pn pd.constraintEnum) := by
  unfold enhanceClimateMode
  simp only [hcm, strTruthy, Bool.false_eq_true, if_false, hlook, hexec,
    hparams, List.head?_cons, Option.getD_some, if_true]
  simp

theorem enhance_countP_climate (cfg : Cfg) (features : List Feature) :
    ∀ comps : Components,
      (enhanceComponentsWithCommands cfg features comps).countP
          (fun kv => kv.2.platform == "climate")
        = comps.countP (fun kv => kv.2.platform == "climate") := by
  intro comps
  induction comps with
  | nil => rfl
  | cons kv rest ih =>
    unfold enhanceComponentsWithCommands at ih ⊢
    simp only [List.map_cons, List.countP_cons, ih]
    have hpl := (sameCore_enhanceClimate cfg features kv.2).2.2.1
    simp [hpl]

/-! ### Concrete scenario used by the witnesses and counterexamples -/

def cfgW : Cfg := ⟨"vie", 1, "GW", "0"⟩

def detectW : DetectFn := fun _ _ _ => ⟨none, none⟩

def fnameW : NameFn := fun _ => "Name"

/-- A disabled feature carrying an executable single-parameter command. -/
def fDisabled : Feature :=
  { feature := "heating.dhw.temperature.main", isEnabled := false,
    properties := [("value", .jobj [("type", .jstr "number"),
      ("value", .jnum 50), ("unit", .jstr "celsius")])],
    commands := [("setTargetTemperature",
      ⟨"setTargetTemperature", true,
        [("temperature", ⟨"number", none, some 30, some 60, none⟩)]⟩)] }

def docW1 : Components := discoveryComponents cfgW detectW fnameW [] [] [fDisabled]

def kvW1 : String × Component := docW1.headD ("", { platform := "" })

/-- A service-technician feature with a plain numeric value. -/
def fSvc : Feature :=
  { feature := "heating.dhw.hysteresis", isEnabled := true,
    properties := [("value", .jobj [("type", .jstr "number"),
      ("value", .jnum 5), ("unit", .jstr "kelvin")])],
    commands := [] }

def kvW2 : String × Component :=
  (autoComponentsForFeature cfgW detectW fnameW [fSvc] fSvc).headD
    ("", { platform := "" })

/-- A service-technician schedule feature with a `setSchedule` command. -/
def fSched : Feature :=
  { feature := "heating.circuits.0.operating.programs.screedDrying.schedule",
    isEnabled := true,
    properties := [("entries", .jobj [("type", .jstr "Schedule"),
      ("value", .jobj [("mon", .jarr [.jstr "07:00-22:00"])])])],
    commands := [("setSchedule",
      ⟨"setSchedule", true,
        [("newSchedule", ⟨"Schedule", none, none, none, none⟩)]⟩)] }

/-- A feature whose climate component pre-exists in the record. -/
def fClimate : Feature :=
  { feature := "heating.circuits.1.operating.modes.active", isEnabled := true,
    properties := [("value", .jobj [("type", .jstr "string"),
      ("value", .jstr "standby")])],
    commands := [("setMode",
      ⟨"setMode", true,
        [("mode", ⟨"string", some ["standby", "heating"], none, none,
          none⟩)]⟩)] }

def climComp : Component :=
  { platform := "climate"
    unique_id := some (uidOf cfgW "circuit_1_climate")
    state_topic := some (featureTopic cfgW fClimate.feature) }

def compsW : Components := [("circuit_1_climate", climComp)]

/-! ### Claims C1, C2, C5 and C9 -/

/-- C1 (amended): every component of the discovery document that carries a
`state_topic` references a feature present in the input list — but not
necessarily an enabled one: the command pass never consults `isEnabled`.
`pre` stands for the decorator/device passes, assumed to satisfy the entry
invariant. -/
theorem discovery_state_topics (cfg : Cfg) (detect : DetectFn) (fname : NameFn)
    (pre : Components) (dps : List String) (features : List Feature)
    (hpre : ∀ kv ∈ pre, StInv cfg features kv)
    (hpreN : (pre.map Prod.fst).Nodup) :
    ∀ kv ∈ discoveryComponents cfg detect fname pre dps features,
      ∀ t, kv.2.state_topic = some t →
        ∃ f ∈ features, t = featureTopic cfg f.feature :=
  fun kv hkv t ht =>
    ((discovery_inv cfg detect fname pre dps features hpre hpreN).1 kv hkv).1 t ht

set_option maxRecDepth 100000 in
/-- Witness for C1 at the concrete disabled-feature scenario. -/
theorem discovery_state_topics_witness :
    ∃ f ∈ [fDisabled],
      featureTopic cfgW "heating.dhw.temperature.main"
        = featureTopic cfgW f.feature :=
  discovery_state_topics cfgW detectW fnameW [] [] [fDisabled]
    (fun _ hkv => nomatch hkv) (by simp) kvW1 (by decide)
    (featureTopic cfgW "heating.dhw.temperature.main") (by decide)

set_option maxRecDepth 100000 in
/-- C1 counterexample: a disabled feature with an executable command still
contributes a component whose `state_topic` is that feature's topic, so
"present and enabled" is too strong. -/
theorem state_topic_disabled_counterexample :
    fDisabled.isEnabled = false
    ∧ ∃ kv ∈ discoveryComponents cfgW detectW fnameW [] [] [fDisabled],
        kv.2.state_topic = some (featureTopic cfgW fDisabled.feature) :=
  ⟨rfl, by decide⟩

/-- C2 (amended): the automatic pass gives every component of a
service-technician feature `entity_category = "diagnostic"` and
`enabled_by_default = false`; and no sensor or binary_sensor anywhere in a
discovery document carries `entity_category = "config"`.  (The schedule
sensors the command pass emits for service features are only disabled, not
categorised — see the counterexample.) -/
theorem service_sensor_category (cfg : Cfg) (detect : DetectFn)
    (fname : NameFn) (pre : Components) (dps : List String)
    (features : List Feature) (f : Feature)
    (hpre : ∀ kv ∈ pre, StInv cfg features kv)
    (hpreN : (pre.map Prod.fst).Nodup) :
    (∀ kv ∈ autoComponentsForFeature cfg detect fname features f,
        isServiceTechnicianFeature f.feature = true →
        kv.2.entity_category = some "diagnostic"
          ∧ kv.2.enabled_by_default = some false)
    ∧ (∀ kv ∈ discoveryComponents cfg detect fname pre dps features,
        (kv.2.platform = "sensor" ∨ kv.2.platform = "binary_sensor") →
        kv.2.entity_category ≠ some "config") := by
  constructor
  · intro kv hkv hs
    exact (autoComponentsForFeature_inv cfg detect fname features f kv hkv).2.2.2 hs
  · intro kv hkv hp
    exact ((discovery_inv cfg detect fname pre dps features hpre hpreN).1
      kv hkv).2.2 hp

set_option maxRecDepth 100000 in
/-- Witness for C2 at a concrete hysteresis sensor. -/
theorem service_sensor_category_witness :
    kvW2.2.entity_category = some "diagnostic"
    ∧ kvW2.2.enabled_by_default = some false :=
  (service_sensor_category cfgW detectW fnameW [] [] [fSvc] fSvc
    (fun _ hkv => nomatch hkv) (by simp)).1 kvW2 (by decide) (by decide)

set_option maxRecDepth 100000 in
/-- C2 counterexample: the schedule sensor of a service-technician feature
(`.screedDrying` path) is emitted by the command pass with **no**
`entity_category` at all — only `enabled_by_default = false` — so "every
sensor of a service feature has entity_category = diagnostic" fails. -/
theorem service_schedule_sensor_counterexample :
    isServiceTechnicianFeature fSched.feature = true
    ∧ ∃ kv ∈ discoveryComponents cfgW detectW fnameW [] [] [fSched],
        kv.2.platform = "sensor" ∧ kv.2.enabled_by_default = some false
          ∧ kv.2.entity_category = none := by
  exact ⟨by decide, by decide⟩

/-- C9: no two components of one discovery document share a `unique_id`:
the record keys are duplicate-free and every entry's `unique_id` is
injectively derived from its key. -/
theorem discovery_unique_ids (cfg : Cfg) (detect : DetectFn) (fname : NameFn)
    (pre : Components) (dps : List String) (features : List Feature)
    (hpre : ∀ kv ∈ pre, StInv cfg features kv)
    (hpreN : (pre.map Prod.fst).Nodup) :
    ((discoveryComponents cfg detect fname pre dps features).filterMap
      (fun kv => kv.2.unique_id)).Nodup := by
  obtain ⟨hmem, hN⟩ := discovery_inv cfg detect fname pre dps features hpre hpreN
  rw [filterMap_uid_eq cfg _ (fun kv hkv => (hmem kv hkv).2.1)]
  exact List.Nodup.map (fun a b h => uidOf_inj cfg h) hN

set_option maxRecDepth 100000 in
/-- Witness for C9 at the concrete schedule scenario. -/
theorem discovery_unique_ids_witness :
    ((discoveryComponents cfgW detectW fnameW [] [] [fSched]).filterMap
      (fun kv => kv.2.unique_id)).Nodup :=
  discovery_unique_ids cfgW detectW fnameW [] [] [fSched]
    (fun _ hkv => nomatch hkv) (by simp)

/-- C5: an executable `setMode` command on a feature that already has a
climate component in the record is skipped by the command pass (no select
is created and the record is untouched), and the climate component gets
`mode_command_topic`/`mode_command_template` wired through
`enhanceComponentsWithCommands`, which also preserves the number of
climate components. -/
theorem setMode_climate_absorbed (cfg : Cfg) (fname : NameFn)
    (features : List Feature) (f : Feature) (comps : Components)
    (c : Component) (cmd : Command) (pn : String) (pd : CommandParam)
    (es : List String)
    (hnc : isCircuitContainerFeature f.feature = false)
    (hnl : isListFeature f.feature = false)
    (hcmds : f.commands = [("setMode", cmd)])
    (hexec : cmd.isExecutable = true)
    (hname : cmd.name = "setMode")
    (hparams : cmd.params = [(pn, pd)])
    (henum : pd.constraintEnum = some es)
    (hclimate : (componentsForFeature comps f.feature).any
        (fun kv => kv.2.platform = "climate") = true)
    (hcp : c.platform = "climate")
    (hcx : extractFeaturePath c.state_topic = some f.feature)
    (hcm : c.mode_command_topic = none)
    (hmap : featureMapGet features f.feature = some f) :
    generateCommandComponentsFromFeatures cfg fname [f] comps = ⟨comps, []⟩
    ∧ (enhanceClimateComponent cfg features c).mode_command_topic
        = some (commandTopicOf cfg f.feature "setMode")
    ∧ (enhanceClimateComponent cfg features c).mode_command_template
        = some (buildModeCommandTemplate pn (some es))
    ∧ (enhanceComponentsWithCommands cfg features comps).countP
          (fun kv => kv.2.platform == "climate")
        = comps.countP (fun kv => kv.2.platform == "climate") := by
  have hlook : jxLookupCmd f.commands "setMode" = some cmd := by
    simp [hcmds, jxLookupCmd]
  have hmode := enhanceMode_wires cfg f.feature f c cmd pn pd hcm hlook hexec hparams
  have htemp := enhanceTemperature_mode_fields cfg f.feature f
    (enhanceClimateMode cfg f.feature f c)
  have henh : enhanceClimateComponent cfg features c
      = enhanceClimateTemperature cfg f.feature f
          (enhanceClimateMode cfg f.feature f c) := by
    unfold enhanceClimateComponent
    simp only [hcp, hcx, hmap]
    simp
  refine ⟨?_, ?_, ?_, enhance_countP_climate cfg features comps⟩
  · unfold generateCommandComponentsFromFeatures
    simp only [List.foldl_cons, List.foldl_nil, processFeature, hnc, hnl,
      Bool.or_self, Bool.false_eq_true, if_false, getExecutableCommands,
      hcmds, List.filter_cons, hexec, if_true, List.filter_nil,
      reduceCtorEq, processCommand, hclimate, Bool.and_true]
    simp
  · rw [henh, htemp.1, hmode.1, hname]
  · rw [henh, htemp.2, hmode.2, henum]

/-- Witness for C5 at the concrete circuit-1 climate scenario. -/
theorem setMode_climate_absorbed_witness :
    generateCommandComponentsFromFeatures cfgW fnameW [fClimate] compsW
        = ⟨compsW, []⟩
    ∧ (enhanceClimateComponent cfgW [fClimate] climComp).mode_command_topic
        = some (commandTopicOf cfgW fClimate.feature "setMode")
    ∧ (enhanceClimateComponent cfgW [fClimate] climComp).mode_command_template
        = some (buildModeCommandTemplate "mode" (some ["standby", "heating"]))
    ∧ (enhanceComponentsWithCommands cfgW [fClimate] compsW).countP
          (fun kv => kv.2.platform == "climate")
        = compsW.countP (fun kv => kv.2.platform == "climate") :=
  setMode_climate_absorbed cfgW fnameW [fClimate] fClimate compsW climComp
    ⟨"setMode", true, [("mode", ⟨"string", some ["standby", "heating"],
      none, none, none⟩)]⟩
    "mode" ⟨"string", some ["standby", "heating"], none, none, none⟩
    ["standby", "heating"]
    (by decide) (by decide) rfl rfl rfl rfl rfl (by decide) rfl rfl rfl rfl

end V2M
